import Mathlib

/-!
Access-control and rate-limiting gateway of the e-filing integration.

A shallow embedding of `src/lib/apiAuth.js`, `src/lib/externalApiAuth.js`,
`src/app/api/external/work-requests/verify/route.js`, the two client libraries
`src/lib/efilingApiClient.js` and `src/lib/videoArchivingApiClient.js`, and the
proxy route `src/app/api/efiling/video-archiving/work-requests/route.js` and
the limit of the list route `src/app/api/external/work-requests/route.js`,
followed by theorems about the credential validator, the fixed-window rate
limiter, the gateway sequence of the verify endpoint and the envelopes of the
clients.

Modelling conventions:
* a JavaScript value that is `null`/`undefined` or a string is an `Option String`;
  it is falsy when it is absent or the empty string;
* `process.env` is the record `Env`, read at call time;
* the module-level `rateLimitStore` (a `Map` with string keys) is a partial
  function from keys to windows, passed in and returned explicitly;
* every `Date.now()` read is an explicit argument, in milliseconds since the epoch;
* the result of an `async` function is the value its promise resolves to, or
  the message of the error it rejects with; `fetch`, the `URL` constructor, the
  session and the database are arguments.
-/

set_option autoImplicit false

namespace Efiling

/-! ## JavaScript helpers -/

/-- Truthiness of a value that is either absent or a string: only a non-empty
string is truthy. -/
def truthy : Option String → Bool
  | some s => s != ""
  | none => false

/-- The operator `a || b` on values that are absent or strings: `a` when it is
truthy, otherwise `b`. -/
def jsOr (a b : Option String) : Option String :=
  if truthy a then a else b

/-- Test whether `pre` is a prefix of `cs`. -/
def startsWithChars : List Char → List Char → Bool
  | [], _ => true
  | _ :: _, [] => false
  | p :: ps, c :: cs => p == c && startsWithChars ps cs

/-- Test whether `sub` occurs somewhere in `cs`. -/
def includesChars (sub : List Char) : List Char → Bool
  | [] => sub.isEmpty
  | c :: cs => startsWithChars sub (c :: cs) || includesChars sub cs

/-- The method `String.prototype.includes`. -/
def includes (s sub : String) : Bool :=
  includesChars sub.data s.data

/-- The expression `h?.includes(sub)` for a header value `h` that may be absent;
an absent header gives `undefined`, which is falsy. -/
def optIncludes (h : Option String) (sub : String) : Bool :=
  match h with
  | some s => includes s sub
  | none => false

/-- ASCII lower-casing of one character. -/
def lowerChar (c : Char) : Char :=
  if 65 ≤ c.toNat ∧ c.toNat ≤ 90 then Char.ofNat (c.toNat + 32) else c

/-- ASCII lower-casing of a header name. -/
def lowerName (s : String) : String :=
  String.mk (s.data.map lowerChar)

/-! ## Requests, environment and responses -/

/-- The header list of a request, names stored in lower case, one entry per name. -/
abbrev Headers := List (String × String)

/-- The method `Headers.get`: header names are matched case-insensitively and an
absent header gives `null`. -/
def Headers.get (h : Headers) (name : String) : Option String :=
  h.lookup (lowerName name)

/-- The part of an incoming `Request` that the gateway reads. -/
structure Request where
  headers : Headers
  deriving DecidableEq, Repr

/-- The part of `process.env` that the gateway reads. -/
structure Env where
  NODE_ENV : Option String
  VIDEO_ARCHIVING_API_KEY : Option String
  EXTERNAL_API_KEY : Option String
  deriving DecidableEq, Repr

/-- A JSON scalar. -/
inductive Scalar where
  | null
  | bool (b : Bool)
  | num (n : Int)
  | str (s : String)
  deriving DecidableEq, Repr

/-- A JSON value as it occurs in a response body: a scalar or an object of scalars. -/
inductive JsonValue where
  | scalar (v : Scalar)
  | obj (fields : List (String × Scalar))
  deriving DecidableEq, Repr

/-- The result of `NextResponse.json(body, { status, headers })`: the top-level
fields of the body, the status (200 when none is given) and the headers passed. -/
structure Response where
  status : Nat
  body : List (String × JsonValue)
  headers : List (String × String)
  deriving DecidableEq, Repr

/-- The call `NextResponse.json({ error: msg }, { status })`. -/
def errorResponse (msg : String) (status : Nat) : Response :=
  { status := status, body := [("error", .scalar (.str msg))], headers := [] }

/-- The expression `request.headers.get('X-API-Key') || request.headers.get('x-api-key')`. -/
def apiKeyOf (request : Request) : Option String :=
  jsOr (request.headers.get "X-API-Key") (request.headers.get "x-api-key")

/-- The expression `process.env.VIDEO_ARCHIVING_API_KEY || process.env.EXTERNAL_API_KEY`. -/
def expectedKeyOf (env : Env) : Option String :=
  jsOr env.VIDEO_ARCHIVING_API_KEY env.EXTERNAL_API_KEY

/-- The test `process.env.NODE_ENV === 'development'`. -/
def isDevelopment (env : Env) : Bool :=
  env.NODE_ENV == some "development"

/-! ## `src/lib/apiAuth.js` -/

namespace ApiAuth

/-- The constant `RATE_LIMIT_CONFIG.maxRequests`. -/
def maxRequests : Nat := 100

/-- The constant `RATE_LIMIT_CONFIG.windowMs`. -/
def windowMs : Nat := 60 * 1000

/-- The value `isLocalhost` computed by `validateApiKey` from the `host` and
`x-forwarded-for` headers. -/
def isLocalhost (request : Request) : Bool :=
  optIncludes (request.headers.get "host") "localhost" ||
  optIncludes (request.headers.get "host") "127.0.0.1" ||
  optIncludes (request.headers.get "x-forwarded-for") "127.0.0.1"

/-- The function `validateApiKey` of `src/lib/apiAuth.js`: `none` is the `null`
result (valid), `some r` an error response. -/
def validateApiKey (request : Request) (env : Env) : Option Response :=
  let apiKey := apiKeyOf request
  let expectedKey := expectedKeyOf env
  if isDevelopment env && isLocalhost request && !truthy apiKey then
    none
  else if !truthy apiKey then
    some (errorResponse "API key required. Provide X-API-Key header." 401)
  else if !truthy expectedKey then
    if isDevelopment env then
      none
    else
      some (errorResponse "Server configuration error" 500)
  else if apiKey != expectedKey then
    some (errorResponse "Unauthorized - Invalid API key" 401)
  else
    none

/-- One window of the store: `{ count, resetAt }`. -/
structure RateLimitWindow where
  count : Nat
  resetAt : Nat
  deriving DecidableEq, Repr

/-- The module-level `rateLimitStore`, a `Map` from string keys to windows. -/
abbrev Store := String → Option RateLimitWindow

/-- The store `new Map()`. -/
def emptyStore : Store := fun _ => none

/-- The method `rateLimitStore.set(key, value)`. -/
def Store.set (store : Store) (key : String) (value : RateLimitWindow) : Store :=
  fun k => if k = key then some value else store k

/-- The method `rateLimitStore.delete(key)`. -/
def Store.delete (store : Store) (key : String) : Store :=
  fun k => if k = key then none else store k

/-- The function `cleanupRateLimit`, with `now` its `Date.now()` read: every
entry with `now > value.resetAt` is deleted. -/
def cleanupRateLimit (now : Nat) (store : Store) : Store :=
  fun key =>
    match store key with
    | some value => if now > value.resetAt then none else some value
    | none => none

/-- The template literal for the store key of a credential. An absent
credential would be rendered as the text `null`. -/
def rateLimitKey (apiKey : Option String) : String :=
  "rate_limit:" ++ (match apiKey with
    | some s => s
    | none => "null")

/-- Two decimal digits. -/
def pad2 (n : Nat) : String :=
  String.mk [Nat.digitChar (n / 10 % 10), Nat.digitChar (n % 10)]

/-- Three decimal digits. -/
def pad3 (n : Nat) : String :=
  String.mk [Nat.digitChar (n / 100 % 10), Nat.digitChar (n / 10 % 10), Nat.digitChar (n % 10)]

/-- The year of an ISO-8601 rendering: four digits up to 9999, the expanded
six-digit form with a sign beyond. -/
def isoYear (y : Nat) : String :=
  if y ≤ 9999 then pad2 (y / 100) ++ pad2 (y % 100)
  else "+" ++ pad2 (y / 10000) ++ pad2 (y / 100 % 100) ++ pad2 (y % 100)

/-- The expression `new Date(ms).toISOString()` for a time value `ms` at or
after the epoch (the platform accepts time values up to 8.64e15). -/
def toISOString (ms : Nat) : String :=
  let days := ms / 86400000
  let rest := ms % 86400000
  let z := days + 719468
  let era := z / 146097
  let doe := z % 146097
  let yoe := (doe - doe / 1460 + doe / 36524 - doe / 146096) / 365
  let doy := doe - (365 * yoe + yoe / 4 - yoe / 100)
  let mp := (5 * doy + 2) / 153
  let d := doy - (153 * mp + 2) / 5 + 1
  let m := if mp < 10 then mp + 3 else mp - 9
  let y := yoe + era * 400 + (if m ≤ 2 then 1 else 0)
  isoYear y ++ "-" ++ pad2 m ++ "-" ++ pad2 d ++ "T" ++
    pad2 (rest / 3600000) ++ ":" ++ pad2 (rest / 60000 % 60) ++ ":" ++
    pad2 (rest / 1000 % 60) ++ "." ++ pad3 (rest % 1000) ++ "Z"

/-- The 429 response built by `checkRateLimit` for a window ending at `resetAt`. -/
def rateLimitExceeded (resetAt : Nat) : Response :=
  { status := 429
    body := [("error", .scalar (.str "Rate limit exceeded")),
             ("resetAt", .scalar (.str (toISOString resetAt)))]
    headers := [("X-RateLimit-Limit", toString maxRequests),
                ("X-RateLimit-Remaining", "0"),
                ("X-RateLimit-Reset", toISOString resetAt)] }

/-- The value `isLocalhost` computed by `checkRateLimit` from the `host` header. -/
def isLocalhostHost (request : Request) : Bool :=
  optIncludes (request.headers.get "host") "localhost" ||
  optIncludes (request.headers.get "host") "127.0.0.1"

/-- The function `checkRateLimit`. `sweepNow` is the `Date.now()` read inside
`cleanupRateLimit` and `now` the later read of `checkRateLimit` itself. The
result is the returned value (`none` for `null`, allowed) and the store
afterwards. -/
def checkRateLimit (request : Request) (env : Env) (sweepNow now : Nat) (store : Store) :
    Option Response × Store :=
  let apiKey := apiKeyOf request
  if isDevelopment env && isLocalhostHost request && !truthy apiKey then
    (none, store)
  else if !truthy apiKey then
    (none, store)
  else
    let store := cleanupRateLimit sweepNow store
    let key := rateLimitKey apiKey
    match store key with
    | none =>
      (none, store.set key { count := 1, resetAt := now + windowMs })
    | some limit =>
      if now > limit.resetAt then
        (none, store.set key { count := 1, resetAt := now + windowMs })
      else if limit.count ≥ maxRequests then
        (some (rateLimitExceeded limit.resetAt), store)
      else
        (none, store.set key { limit with count := limit.count + 1 })

/-- The function `getRateLimitHeaders`, with `now` its `Date.now()` read. -/
def getRateLimitHeaders (request : Request) (now : Nat) (store : Store) :
    List (String × String) :=
  let apiKey := apiKeyOf request
  if !truthy apiKey then
    []
  else
    match store (rateLimitKey apiKey) with
    | none =>
      [("X-RateLimit-Limit", toString maxRequests),
       ("X-RateLimit-Remaining", toString (maxRequests - 1)),
       ("X-RateLimit-Reset", toISOString (now + windowMs))]
    | some limit =>
      [("X-RateLimit-Limit", toString maxRequests),
       ("X-RateLimit-Remaining", toString (max 0 ((maxRequests : Int) - limit.count))),
       ("X-RateLimit-Reset", toISOString limit.resetAt)]

/-- One call of `checkRateLimit`: the request and the two clock reads. -/
structure Call where
  request : Request
  sweepNow : Nat
  now : Nat
  deriving DecidableEq, Repr

/-- A sequence of `checkRateLimit` calls run one after another on the shared
store: the value returned by each call, in order, and the store at the end. -/
def runCalls (env : Env) : List Call → Store → List (Option Response) × Store
  | [], store => ([], store)
  | c :: cs, store =>
    let r := checkRateLimit c.request env c.sweepNow c.now store
    let rest := runCalls env cs r.2
    (r.1 :: rest.1, rest.2)

/-- The clock reads of a sequence of calls, in the order they happen. -/
def instants : List Call → List Nat
  | [] => []
  | c :: cs => c.sweepNow :: c.now :: instants cs

/-- The clock never goes backwards over a sequence of calls. -/
def NonDecreasing (calls : List Call) : Prop :=
  (instants calls).Pairwise (· ≤ ·)

instance (calls : List Call) : Decidable (NonDecreasing calls) :=
  inferInstanceAs (Decidable ((instants calls).Pairwise (· ≤ ·)))

/-- Whether a call with its returned value counts as an admission of credential
`k` in `[lo, hi]`: it carried `k`, was allowed (returned `null`) and its
instant `now` lies in the interval. -/
def isAllowedIn (k : String) (lo hi : Nat) (p : Call × Option Response) : Bool :=
  decide (apiKeyOf p.1.request = some k) && p.2.isNone &&
    decide (lo ≤ p.1.now) && decide (p.1.now ≤ hi)

/-- The number of admissions of credential `k` in `[lo, hi]`, given the calls
and the values they returned. -/
def allowedIn (k : String) (lo hi : Nat) (calls : List Call) (outs : List (Option Response)) :
    Nat :=
  (calls.zip outs).countP (isAllowedIn k lo hi)

/-- Whether a call takes one of the two branches of `checkRateLimit` that store
a new window `{ count: 1, resetAt: now + windowMs }`: it carries a credential
and, after the sweep, the credential has no window or an expired one. -/
def createsWindow (c : Call) (store : Store) : Bool :=
  truthy (apiKeyOf c.request) &&
    (match cleanupRateLimit c.sweepNow store (rateLimitKey (apiKeyOf c.request)) with
     | none => true
     | some limit => decide (c.now > limit.resetAt))

/-- The stored count of a key, 0 when it has no window. -/
def countOf (store : Store) (key : String) : Nat :=
  match store key with
  | some limit => limit.count
  | none => 0

end ApiAuth

/-! ## `src/app/api/external/work-requests/verify/route.js` -/

/-- A JavaScript value as produced by parsing a JSON request body, with
`undefined` for a property that is missing. Numbers are integers. -/
inductive JsValue where
  | undefined
  | null
  | bool (b : Bool)
  | num (n : Int)
  | str (s : String)
  | arr (items : List JsValue)
  | obj (fields : List (String × JsValue))
  deriving Repr

/-- Truthiness of a JavaScript value: `undefined`, `null`, `false`, `0` and the
empty string are falsy. -/
def JsValue.truthy : JsValue → Bool
  | .undefined => false
  | .null => false
  | .bool b => b
  | .num n => n != 0
  | .str s => s != ""
  | .arr _ => true
  | .obj _ => true

/-- Property access `v.name` on a value that is neither `null` nor `undefined`:
own properties of an object parsed from JSON, `undefined` otherwise. -/
def JsValue.prop (v : JsValue) (name : String) : JsValue :=
  match v with
  | .obj fields => (fields.lookup name).getD .undefined
  | _ => .undefined

/-- Whether an array item is `null` or `undefined`, which `join` renders as
the empty string. -/
def JsValue.isNullish : JsValue → Bool
  | .undefined => true
  | .null => true
  | _ => false

mutual
/-- The conversion of a value to a string (`String(v)`). A number is an exact
integer and is rendered in decimal digits, which is what the code gives for
integers of magnitude below 1e21 (from there on it uses exponent form). -/
def JsValue.toStr : JsValue → String
  | .undefined => "undefined"
  | .null => "null"
  | .bool b => if b then "true" else "false"
  | .num n => toString n
  | .str s => s
  | .arr items => JsValue.join items
  | .obj _ => "[object Object]"
/-- The method `Array.prototype.join` with a comma. -/
def JsValue.join : List JsValue → String
  | [] => ""
  | x :: rest => (if x.isNullish then "" else JsValue.toStr x) ++ JsValue.joinRest rest
/-- The items of a joined array after the first, each preceded by a comma. -/
def JsValue.joinRest : List JsValue → String
  | [] => ""
  | x :: rest => "," ++ (if x.isNullish then "" else JsValue.toStr x) ++ JsValue.joinRest rest
end

/-- White space as skipped by the conversion of a string to a number. -/
def isStrWhiteSpace (c : Char) : Bool :=
  let n := c.toNat
  n == 9 || n == 10 || n == 11 || n == 12 || n == 13 || n == 32 || n == 160 ||
  n == 0x1680 || (0x2000 ≤ n && n ≤ 0x200A) || n == 0x2028 || n == 0x2029 ||
  n == 0x202F || n == 0x205F || n == 0x3000 || n == 0xFEFF

/-- A decimal digit. -/
def isDecDigit (c : Char) : Bool := 48 ≤ c.toNat && c.toNat ≤ 57

/-- A hexadecimal digit. -/
def isHexDigit (c : Char) : Bool :=
  isDecDigit c || (97 ≤ c.toNat && c.toNat ≤ 102) || (65 ≤ c.toNat && c.toNat ≤ 70)

/-- A non-empty run of characters that all satisfy `p`. -/
def isRun (p : Char → Bool) (cs : List Char) : Bool :=
  !cs.isEmpty && cs.all p

/-- An exponent part: `e` or `E`, an optional sign, digits. -/
def isExponentPart : List Char → Bool
  | [] => false
  | e :: rest =>
    (e == 'e' || e == 'E') &&
      (match rest with
       | [] => false
       | c :: ds => if c == '+' || c == '-' then isRun isDecDigit ds else isRun isDecDigit (c :: ds))

/-- An unsigned decimal literal of the string-to-number grammar: `Infinity`,
or digits with an optional fraction and an optional exponent. -/
def isUnsignedDecimal (cs : List Char) : Bool :=
  if cs == "Infinity".data then true
  else
    let intPart := cs.takeWhile isDecDigit
    match cs.dropWhile isDecDigit with
    | [] => !intPart.isEmpty
    | c :: rest =>
      if c == '.' then
        let frac := rest.takeWhile isDecDigit
        let tail := rest.dropWhile isDecDigit
        (!intPart.isEmpty || !frac.isEmpty) && (tail.isEmpty || isExponentPart tail)
      else
        !intPart.isEmpty && isExponentPart (c :: rest)

/-- A hexadecimal, octal or binary integer literal (`0x..`, `0o..`, `0b..`). -/
def isNonDecimalInteger : List Char → Bool
  | z :: x :: ds =>
    z == '0' &&
      (((x == 'x' || x == 'X') && isRun isHexDigit ds) ||
       ((x == 'o' || x == 'O') && isRun (fun c => 48 ≤ c.toNat && c.toNat ≤ 55) ds) ||
       ((x == 'b' || x == 'B') && isRun (fun c => c == '0' || c == '1') ds))
  | _ => false

/-- Whether `Number(s)` is a number rather than `NaN`: after trimming white
space the string is empty or a numeric literal. -/
def isNumericString (s : String) : Bool :=
  let cs := ((s.data.dropWhile isStrWhiteSpace).reverse.dropWhile isStrWhiteSpace).reverse
  cs.isEmpty || isNonDecimalInteger cs ||
    (match cs with
     | [] => false
     | c :: rest => if c == '+' || c == '-' then isUnsignedDecimal rest else isUnsignedDecimal cs)

/-- The test `isNaN(Number(v))`. -/
def JsValue.numberIsNaN : JsValue → Bool
  | .undefined => true
  | .null => false
  | .bool _ => false
  | .num _ => false
  | .str s => !isNumericString s
  | .arr items => !isNumericString (JsValue.arr items).toStr
  | .obj _ => true

/-- The operator `a || b` on JavaScript values. -/
def JsValue.or (a b : JsValue) : JsValue :=
  if a.truthy then a else b

/-- Truthiness of a column value. -/
def Scalar.truthy : Scalar → Bool
  | .null => false
  | .bool b => b
  | .num n => n != 0
  | .str s => s != ""

/-- One row returned by the query of the verify endpoint, with the eight
columns of its select list. -/
structure Row where
  id : Scalar
  address : Scalar
  description : Scalar
  status_id : Scalar
  status_name : Scalar
  request_date : Scalar
  created_date : Scalar
  complaint_type : Scalar
  deriving DecidableEq, Repr

/-- The database as seen by the handler: whether `connectToDatabase()` resolves,
and the rows `client.query(query, [param])` resolves to (`none` when it rejects). -/
structure Db where
  connects : Bool
  query : JsValue → Option (List Row)

/-- An input/output action of the business handler. -/
inductive Effect where
  | readBody
  | connect
  | query (param : JsValue)
  deriving Repr

namespace Verify

open ApiAuth

/-- The response of the `catch` block. -/
def internalError : Response :=
  { status := 500
    body := [("exists", .scalar (.bool false)), ("valid", .scalar (.bool false)),
             ("error", .scalar (.str "Internal server error"))]
    headers := [] }

/-- The response for a record that does not exist. -/
def notFound (headers : List (String × String)) : Response :=
  { status := 200
    body := [("exists", .scalar (.bool false)), ("valid", .scalar (.bool false)),
             ("data", .scalar .null)]
    headers := headers }

/-- The response for an existing record `workRequest`. -/
def found (workRequest : Row) (headers : List (String × String)) : Response :=
  { status := 200
    body := [("exists", .scalar (.bool true)), ("valid", .scalar (.bool true)),
             ("data", .obj [
               ("id", workRequest.id),
               ("address", workRequest.address),
               ("description", workRequest.description),
               ("status", workRequest.status_name),
               ("status_id", workRequest.status_id),
               ("request_date", workRequest.request_date),
               ("created_date", workRequest.created_date),
               ("complaint_type",
                 if workRequest.complaint_type.truthy then workRequest.complaint_type else .null)])]
    headers := headers }

/-- The `try` block of `POST`, the business handler. `body` is what
`request.json()` resolves to (`none` when it rejects), `headersNow` the clock
read of `getRateLimitHeaders`. The result is the response and the actions
performed, in order. -/
def handler (request : Request) (body : Option JsValue) (db : Db) (headersNow : Nat)
    (store : Store) : Response × List Effect :=
  match body with
  | none => (internalError, [.readBody])
  | some .null => (internalError, [.readBody])
  | some .undefined => (internalError, [.readBody])
  | some body =>
    let workRequestId := (body.prop "work_request_id").or (body.prop "workRequestId")
    if !workRequestId.truthy then
      (errorResponse "work_request_id is required" 400, [.readBody])
    else if workRequestId.numberIsNaN then
      (errorResponse "Invalid work_request_id format" 400, [.readBody])
    else if !db.connects then
      (internalError, [.readBody, .connect])
    else
      match db.query workRequestId with
      | none => (internalError, [.readBody, .connect, .query workRequestId])
      | some [] =>
        (notFound (getRateLimitHeaders request headersNow store),
          [.readBody, .connect, .query workRequestId])
      | some (workRequest :: _) =>
        (found workRequest (getRateLimitHeaders request headersNow store),
          [.readBody, .connect, .query workRequestId])

/-- The route handler `POST` of the verify endpoint: the response, the store
afterwards and the actions of the business handler. -/
def POST (request : Request) (env : Env) (body : Option JsValue) (db : Db)
    (sweepNow now headersNow : Nat) (store : Store) : Response × Store × List Effect :=
  match validateApiKey request env with
  | some authError => (authError, store, [])
  | none =>
    match checkRateLimit request env sweepNow now store with
    | (some rateLimitError, store) => (rateLimitError, store, [])
    | (none, store) =>
      let r := handler request body db headersNow store
      (r.1, store, r.2)

/-- The fields of the summary in `data` of a response body: the properties of
the `data` object, none when `data` is not an object. -/
def dataFields (r : Response) : List (String × Scalar) :=
  match List.lookup "data" r.body with
  | some (.obj fields) => fields
  | _ => []

end Verify

/-! ## `src/lib/externalApiAuth.js` -/

namespace ExternalApiAuth

/-- The value `isLocalhost` computed by `validateApiKey` from the `host` and
`x-forwarded-for` headers. -/
def isLocalhost (request : Request) : Bool :=
  optIncludes (request.headers.get "host") "localhost" ||
  optIncludes (request.headers.get "host") "127.0.0.1" ||
  optIncludes (request.headers.get "x-forwarded-for") "127.0.0.1"

/-- The function `validateApiKey` of `src/lib/externalApiAuth.js`. -/
def validateApiKey (request : Request) (env : Env) : Option Response :=
  let apiKey := apiKeyOf request
  let expectedKey := expectedKeyOf env
  if isDevelopment env && isLocalhost request && !truthy apiKey then
    none
  else if !truthy apiKey then
    some (errorResponse "Unauthorized - API key required. Provide X-API-Key header." 401)
  else if !truthy expectedKey then
    if isDevelopment env then
      none
    else
      some (errorResponse "Server configuration error" 500)
  else if apiKey != expectedKey then
    some (errorResponse "Unauthorized - Invalid API key" 401)
  else
    none

end ExternalApiAuth

/-! ## Numbers of the limit computations -/

/-- A JavaScript number as it arises from `parseInt`: an integer or `NaN`. -/
inductive JsNum where
  | int (n : Int)
  | nan
  deriving DecidableEq, Repr

/-- The value of a character as a digit: 0 to 9, then the letters from 10. -/
def digitValue (c : Char) : Option Nat :=
  if 48 ≤ c.toNat ∧ c.toNat ≤ 57 then some (c.toNat - 48)
  else if 97 ≤ c.toNat ∧ c.toNat ≤ 122 then some (c.toNat - 87)
  else if 65 ≤ c.toNat ∧ c.toNat ≤ 90 then some (c.toNat - 55)
  else none

/-- The longest run of digits of the given radix at the start of a string. -/
def radixDigits (radix : Nat) : List Char → List Nat
  | [] => []
  | c :: rest =>
    match digitValue c with
    | some d => if d < radix then d :: radixDigits radix rest else []
    | none => []

/-- The function `parseInt(s, radix)`, with `radix = 0` for an omitted radix:
leading white space and a sign are skipped, a `0x` prefix selects radix 16
when the radix is omitted or 16, and the longest run of digits is read; no
digit gives `NaN`. The result is the exact integer read, which is what the code
gives in the range where doubles are exact (magnitude up to 2^53). -/
def parseInt (s : String) (radix : Nat) : JsNum :=
  let trimmed := s.data.dropWhile isStrWhiteSpace
  let negative := trimmed.head? == some '-'
  let unsigned :=
    if trimmed.head? == some '+' || trimmed.head? == some '-' then trimmed.tail else trimmed
  if radix ≠ 0 ∧ (radix < 2 ∨ radix > 36) then .nan
  else
    let hexPrefix := (radix == 0 || radix == 16) &&
      (startsWithChars "0x".data unsigned || startsWithChars "0X".data unsigned)
    let r := if hexPrefix then 16 else if radix == 0 then 10 else radix
    let digits := radixDigits r (if hexPrefix then unsigned.drop 2 else unsigned)
    if digits.isEmpty then .nan
    else
      let value : Nat := digits.foldl (fun acc d => acc * r + d) 0
      .int (if negative then -(value : Int) else (value : Int))

/-- The call `Math.min(x, bound)` for an integer `bound`: `NaN` stays `NaN`. -/
def mathMin (x : JsNum) (bound : Int) : JsNum :=
  match x with
  | .int n => .int (min n bound)
  | .nan => .nan

/-- The method `toString()` of a number. -/
def JsNum.toStr : JsNum → String
  | .int n => toString n
  | .nan => "NaN"

/-! ## The cross-system clients: shared parts -/

/-- A JavaScript object as the list of its properties, each name once; a name
is looked up by its first entry. The order of properties is not modelled. -/
abbrev JsObject := List (String × JsValue)

/-- Assignment of a property: the value of an existing name is replaced, a new
name is added. -/
def JsObject.set : JsObject → String → JsValue → JsObject
  | [], name, v => [(name, v)]
  | (n, w) :: rest, name, v =>
    if n = name then (name, v) :: rest else (n, w) :: JsObject.set rest name v

/-- The own enumerable properties of a value, as copied by the spread `...v` in
an object literal: the fields of an object, the indexed items of an array, the
indexed characters of a string, nothing for other values. A string is indexed
per character, which is what the code gives for characters of the Basic
Multilingual Plane (it indexes per UTF-16 code unit). -/
def JsValue.ownProps : JsValue → JsObject
  | .obj fields => fields
  | .arr items => ((List.range items.length).map fun i => toString i).zip items
  | .str s =>
    ((List.range s.data.length).map fun i => toString i).zip
      (s.data.map fun c => JsValue.str (String.mk [c]))
  | _ => []

/-- The object literal `{ ...base, ...v }` for an object `base` already built:
every own property of `v` is assigned in turn. -/
def spread (base : JsObject) (v : JsValue) : JsObject :=
  v.ownProps.foldl (fun acc p => JsObject.set acc p.1 p.2) base

/-- What a call of `fetch` leads to: a rejection with an error of the given
message, or a response with its status and what `response.json()` resolves to
(or the message of the error it rejects with when the body cannot be parsed). -/
inductive FetchResult where
  | rejects (message : String)
  | responds (status : Nat) (json : Except String JsValue)

/-- The request handed to `fetch`: the URL without its query string, the query
parameters appended to it, and the request options. -/
structure FetchCall where
  url : String
  query : List (String × String)
  method : String
  headers : List (String × String)
  body : Option JsValue
  deriving Repr

/-- The platform a client runs on: the `URL` constructor on an input and an
optional base (the serialised URL, or the message of the error it throws),
`window.location.origin` (absent where there is no `window`), and `fetch`. -/
structure Platform where
  newURL : String → Option String → Except String String
  origin : Option String
  fetch : FetchCall → FetchResult

/-- The getter `response.ok`: the status is in the range 200 to 299. -/
def isOk (status : Nat) : Bool :=
  decide (200 ≤ status) && decide (status ≤ 299)

/-- The message of the TypeError thrown when property `name` is read from
`null` (the wording of V8). -/
def nullReadMessage (name : String) : String :=
  "Cannot read properties of null (reading '" ++ name ++ "')"

/-- The fallback `() => ({ error: 'Unknown error' })` applied to
`response.json()`: the parsed body, or the fallback object when parsing fails. -/
def errorDataOf (json : Except String JsValue) : JsValue :=
  match json with
  | .ok v => v
  | .error _ => .obj [("error", .str "Unknown error")]

/-- The `try` block of `apiRequest`, the same in both clients, given what
`fetch` leads to: the envelope returned, or the message of the error thrown
inside the block. -/
def tryBlock (result : FetchResult) : Except String JsObject :=
  match result with
  | .rejects message => .error message
  | .responds status json =>
    if !isOk status then
      let errorData := errorDataOf json
      if errorData.isNullish then .error (nullReadMessage "error")
      else
        .error ((errorData.prop "error").or
          (.str ("API request failed with status " ++ toString status))).toStr
    else
      match json with
      | .error message => .error message
      | .ok data =>
        if data.isNullish then .error (nullReadMessage "data")
        else
          .ok (spread [("success", .bool true), ("data", (data.prop "data").or data)] data)

/-- The envelope returned by the `catch` block of `apiRequest` for an error
with the given message. -/
def failureEnvelope (message : String) : JsObject :=
  [("success", .bool false),
   ("error", .str (if message != "" then message else "Unknown error")),
   ("data", .null)]

/-- The `try`/`catch` statement of `apiRequest`: the envelope it returns. -/
def settle (result : FetchResult) : JsObject :=
  match tryBlock result with
  | .ok envelope => envelope
  | .error message => failureEnvelope message

/-- The options of `apiRequest` after destructuring with its defaults. -/
structure RequestOptions where
  method : String := "GET"
  body : JsValue := .null
  queryParams : JsObject := []

/-- The body attached to the request: present when `body` is truthy and the
method is not `GET`. -/
def bodyOf (options : RequestOptions) : Option JsValue :=
  if options.body.truthy && options.method != "GET" then some options.body else none

/-! ## `src/lib/efilingApiClient.js` -/

namespace EfilingApiClient

/-- The part of `process.env` read by the module. -/
structure ClientEnv where
  EFILING_API_URL : Option String
  EFILING_API_KEY : Option String
  deriving DecidableEq, Repr

/-- The constant `DEFAULT_API_URL`. -/
def DEFAULT_API_URL (env : ClientEnv) : String :=
  (jsOr env.EFILING_API_URL (some "http://localhost:5000/api/external")).getD ""

/-- The constant `API_KEY`. -/
def API_KEY (env : ClientEnv) : String :=
  (jsOr env.EFILING_API_KEY (some "")).getD ""

/-- The query parameters appended to the URL: every entry whose value is
neither `null` nor `undefined`, rendered with `toString()`. -/
def queryOf (queryParams : JsObject) : List (String × String) :=
  (queryParams.filter fun p => !p.2.isNullish).map fun p => (p.1, p.2.toStr)

/-- The statements of `apiRequest` before its `try` block: the request handed
to `fetch`, or the message of the error thrown while building it. -/
def buildRequest (platform : Platform) (env : ClientEnv) (endpoint : String)
    (options : RequestOptions) : Except String FetchCall :=
  match platform.newURL (DEFAULT_API_URL env ++ endpoint) none with
  | .error message => .error message
  | .ok url =>
    .ok { url := url
          query := queryOf options.queryParams
          method := options.method
          headers := [("Content-Type", "application/json")] ++
            (if API_KEY env != "" then [("X-API-Key", API_KEY env)] else [])
          body := bodyOf options }

/-- The function `apiRequest`: the envelope its promise resolves to, or the
message of the error it rejects with. -/
def apiRequest (platform : Platform) (env : ClientEnv) (endpoint : String)
    (options : RequestOptions) : Except String JsObject :=
  match buildRequest platform env endpoint options with
  | .error message => .error message
  | .ok call => .ok (settle (platform.fetch call))

end EfilingApiClient

/-! ## `src/lib/videoArchivingApiClient.js` -/

namespace VideoArchivingApiClient

/-- The query parameters appended to the URL: every entry whose value is
neither `null`, `undefined` nor the empty string, rendered with `toString()`. -/
def queryOf (queryParams : JsObject) : List (String × String) :=
  (queryParams.filter fun p =>
    !p.2.isNullish && !(match p.2 with
      | .str s => s == ""
      | _ => false)).map fun p => (p.1, p.2.toStr)

/-- The statements of `apiRequest` before its `try` block: the request handed
to `fetch`, or the message of the error thrown while building it. -/
def buildRequest (platform : Platform) (endpoint : String) (options : RequestOptions) :
    Except String FetchCall :=
  match platform.origin with
  | none => .error "window is not defined"
  | some origin =>
    match platform.newURL ("/api/efiling/video-archiving" ++ endpoint) (some origin) with
    | .error message => .error message
    | .ok url =>
      .ok { url := url
            query := queryOf options.queryParams
            method := options.method
            headers := [("Content-Type", "application/json")]
            body := bodyOf options }

/-- The function `apiRequest`: the envelope its promise resolves to, or the
message of the error it rejects with. -/
def apiRequest (platform : Platform) (endpoint : String) (options : RequestOptions) :
    Except String JsObject :=
  match buildRequest platform endpoint options with
  | .error message => .error message
  | .ok call => .ok (settle (platform.fetch call))

/-- The result of `verifyWorkRequest` that reports a failure with a message. -/
def verifyFailure (error : JsValue) : JsObject :=
  [("success", .bool false), ("exists", .bool false), ("valid", .bool false), ("error", error)]

/-- The request `verifyWorkRequest` hands to `fetch`. -/
def verifyCall (workRequestId : JsValue) : FetchCall :=
  { url := "/api/efiling/video-archiving/work-requests"
    query := []
    method := "POST"
    headers := [("Content-Type", "application/json")]
    body := some (.obj [("work_request_id", workRequestId)]) }

/-- The `try` block of `verifyWorkRequest` after `fetch`: the object returned,
or the message of the error thrown inside the block. -/
def verifyTry (result : FetchResult) : Except String JsObject :=
  match result with
  | .rejects message => .error message
  | .responds status json =>
    if !isOk status then
      let errorData := errorDataOf json
      if errorData.isNullish then .error (nullReadMessage "error")
      else .ok (verifyFailure ((errorData.prop "error").or (.str "Verification failed")))
    else
      match json with
      | .error message => .error message
      | .ok data =>
        if data.isNullish then .error (nullReadMessage "exists")
        else
          .ok [("success", .bool true),
               ("exists", (data.prop "exists").or (.bool false)),
               ("valid", (data.prop "valid").or (.bool false)),
               ("data", (data.prop "data").or .null),
               ("error", (data.prop "error").or .null)]

/-- The function `verifyWorkRequest`: the object its promise resolves to and
the calls of `fetch` it made. -/
def verifyWorkRequest (platform : Platform) (workRequestId : JsValue) :
    JsObject × List FetchCall :=
  if !workRequestId.truthy then
    (verifyFailure (.str "Work request ID is required"), [])
  else
    match verifyTry (platform.fetch (verifyCall workRequestId)) with
    | .ok result => (result, [verifyCall workRequestId])
    | .error message =>
      (verifyFailure (.str (if message != "" then message else "Unknown error")),
        [verifyCall workRequestId])

end VideoArchivingApiClient

/-! ## `searchWorkRequests` and the list endpoint's limit -/

namespace VideoArchivingApiClient

/-- The `filters` object of `searchWorkRequests`; a property that is not given
is `undefined`. -/
structure Filters where
  search : JsValue := .undefined
  status : JsValue := .undefined
  limit : JsValue := .undefined
  offset : JsValue := .undefined

/-- The object `queryParams` built by `searchWorkRequests`. -/
def searchQueryParams (filters : Filters) : JsObject :=
  [("scope", .str "efiling")] ++
  (if filters.search.truthy then [("search", filters.search)] else []) ++
  (if filters.status.truthy then [("status", .str filters.status.toStr)] else []) ++
  [("limit",
    if filters.limit.truthy then .str (mathMin (parseInt filters.limit.toStr 0) 500).toStr
    else .str "100")] ++
  (if filters.offset.truthy then [("offset", .str filters.offset.toStr)] else [])

/-- The function `searchWorkRequests`. -/
def searchWorkRequests (platform : Platform) (filters : Filters) : Except String JsObject :=
  apiRequest platform "/work-requests"
    { method := "GET", queryParams := searchQueryParams filters }

/-- The request `searchWorkRequests` hands to `fetch`, or the message of the
error thrown while it is built. -/
def searchRequest (platform : Platform) (filters : Filters) : Except String FetchCall :=
  buildRequest platform "/work-requests"
    { method := "GET", queryParams := searchQueryParams filters }

end VideoArchivingApiClient

/-! ## `src/app/api/external/work-requests/route.js` -/

namespace WorkRequests

/-- The constant `limit` of the list endpoint `GET`, from the value of
`searchParams.get('limit')` (absent when the parameter is not given). -/
def limit (limitParam : Option String) : JsNum :=
  mathMin (parseInt ((jsOr limitParam (some "100")).getD "") 10) 500

end WorkRequests

/-! ## `src/app/api/efiling/video-archiving/work-requests/route.js` -/

namespace Proxy

/-- The part of `process.env` read by the proxy route. -/
structure ProxyEnv where
  VIDEO_ARCHIVING_API_URL : Option String
  VIDEO_ARCHIVING_API_KEY : Option String
  EXTERNAL_API_KEY : Option String
  deriving DecidableEq, Repr

/-- A response built by `NextResponse.json(body, { status })`. -/
structure JsonResponse where
  status : Nat
  body : JsValue

/-- The call `NextResponse.json(body, { status })`: it throws (`none`) for a
status outside 200 to 599 and for a status that admits no body (101, 103, 204,
205, 304). -/
def nextJson (body : JsValue) (status : Nat) : Option JsonResponse :=
  if status < 200 || status > 599 || status == 204 || status == 205 || status == 304 then none
  else some { status := status, body := body }

/-- The response of the `catch` block. -/
def internalError : JsonResponse :=
  { status := 500, body := .obj [("error", .str "Internal server error")] }

/-- The expression `process.env.VIDEO_ARCHIVING_API_URL || 'http://localhost:3000/api/external'`. -/
def apiUrl (env : ProxyEnv) : String :=
  (jsOr env.VIDEO_ARCHIVING_API_URL (some "http://localhost:3000/api/external")).getD ""

/-- The expression
`process.env.VIDEO_ARCHIVING_API_KEY || process.env.EXTERNAL_API_KEY || ''`. -/
def apiKey (env : ProxyEnv) : String :=
  (jsOr (jsOr env.VIDEO_ARCHIVING_API_KEY env.EXTERNAL_API_KEY) (some "")).getD ""

/-- The request the proxy `POST` hands to `fetch`. -/
def verifyCall (env : ProxyEnv) (workRequestId : JsValue) : FetchCall :=
  { url := apiUrl env ++ "/work-requests/verify"
    query := []
    method := "POST"
    headers := [("Content-Type", "application/json")] ++
      (if apiKey env != "" then [("X-API-Key", apiKey env)] else [])
    body := some (.obj [("work_request_id", workRequestId)]) }

/-- The part of the proxy `POST` after `fetch`: the response returned, or
`none` when an error is thrown inside the `try` block. -/
def relay (result : FetchResult) : Option JsonResponse :=
  match result with
  | .rejects _ => none
  | .responds status json =>
    if !isOk status then
      let errorData := errorDataOf json
      if errorData.isNullish then none
      else
        nextJson (.obj [("error",
          (errorData.prop "error").or (.str "Failed to verify work request"))]) status
    else
      match json with
      | .error _ => none
      | .ok data => nextJson data 200

/-- The route handler `POST` of the proxy: the response and the calls of
`fetch` it made. `session` is whether `session?.user` is truthy (`none` when
`auth()` rejects), `body` what `request.json()` resolves to (`none` when it
rejects). -/
def POST (fetch : FetchCall → FetchResult) (env : ProxyEnv) (session : Option Bool)
    (body : Option JsValue) : JsonResponse × List FetchCall :=
  match session with
  | none => (internalError, [])
  | some false => ({ status := 401, body := .obj [("error", .str "Unauthorized")] }, [])
  | some true =>
    match body with
    | none => (internalError, [])
    | some .null => (internalError, [])
    | some .undefined => (internalError, [])
    | some body =>
      let workRequestId := (body.prop "work_request_id").or (body.prop "workRequestId")
      if !workRequestId.truthy then
        ({ status := 400, body := .obj [("error", .str "work_request_id is required")] }, [])
      else
        ((relay (fetch (verifyCall env workRequestId))).getD internalError,
          [verifyCall env workRequestId])

end Proxy

/-! ## The validator as the specification words it -/

namespace Spec

/-- The decision of the credential validator of the specification. -/
inductive Decision where
  | allow
  | deny (reason : String)
  | misconfiguredServer
  deriving DecidableEq, Repr

/-- No credential is presented: the header is missing or empty. -/
def absent (presented : Option String) : Bool :=
  presented == none || presented == some ""

/-- The rules of the credential validator, in the order the specification
lists them. -/
def validate (presentedCredential : Option String) (isLocalLoopback isDevelopmentMode : Bool)
    (expectedCredential : Option String) : Decision :=
  if isDevelopmentMode && isLocalLoopback && absent presentedCredential then .allow
  else if absent presentedCredential then .deny "credential required"
  else if absent expectedCredential then
    if isDevelopmentMode then .allow else .misconfiguredServer
  else if presentedCredential ≠ expectedCredential then .deny "invalid credential"
  else .allow

/-- The response status a decision maps to: none for `Allow`, 401 for `Deny`,
500 for `MisconfiguredServer`. -/
def Decision.status : Decision → Option Nat
  | .allow => none
  | .deny _ => some 401
  | .misconfiguredServer => some 500

/-- The fields of the minimal projection as the specification lists them:
identifier, short description, status label, status code, creation and request
timestamps, category label, under the names of the response. -/
def summaryFields : List String :=
  ["id", "description", "status", "status_id", "created_date", "request_date",
   "complaint_type"]

end Spec

/-! ## Auxiliary facts -/

open ApiAuth

theorem truthy_some (k : String) : truthy (some k) = true ↔ k ≠ "" := by
  simp [truthy]

theorem absent_eq_not_truthy (p : Option String) : Spec.absent p = !truthy p := by
  cases p with
  | none => rfl
  | some s => by_cases h : s = "" <;> simp [Spec.absent, truthy, bne, h]

theorem toString_maxRequests : toString maxRequests = "100" := by decide

/-- A call that carries a credential goes past both bypasses: it sweeps and
then takes one of the four branches on the credential's window. -/
theorem checkRateLimit_of_key {request : Request} {k : String}
    (hk : apiKeyOf request = some k) (hne : k ≠ "") (env : Env) (s t : Nat) (store : Store) :
    checkRateLimit request env s t store =
      match cleanupRateLimit s store (rateLimitKey (some k)) with
      | none =>
        (none, (cleanupRateLimit s store).set (rateLimitKey (some k))
          { count := 1, resetAt := t + windowMs })
      | some limit =>
        if t > limit.resetAt then
          (none, (cleanupRateLimit s store).set (rateLimitKey (some k))
            { count := 1, resetAt := t + windowMs })
        else if limit.count ≥ maxRequests then
          (some (rateLimitExceeded limit.resetAt), cleanupRateLimit s store)
        else
          (none, (cleanupRateLimit s store).set (rateLimitKey (some k))
            { limit with count := limit.count + 1 }) := by
  simp [checkRateLimit, hk, truthy, hne]

/-- A call without a credential returns `null` and leaves the store as it is. -/
theorem checkRateLimit_of_no_key {request : Request} (hk : truthy (apiKeyOf request) = false)
    (env : Env) (s t : Nat) (store : Store) :
    checkRateLimit request env s t store = (none, store) := by
  simp [checkRateLimit, hk]

theorem cleanup_keep {store : Store} {key : String} {w : RateLimitWindow} {s : Nat}
    (h : store key = some w) (hs : s ≤ w.resetAt) : cleanupRateLimit s store key = some w := by
  simp [cleanupRateLimit, h, Nat.not_lt.mpr hs]

theorem cleanup_drop {store : Store} {key : String} {w : RateLimitWindow} {s : Nat}
    (h : store key = some w) (hs : w.resetAt < s) : cleanupRateLimit s store key = none := by
  simp [cleanupRateLimit, h, hs]

theorem cleanup_none {store : Store} {key : String} (s : Nat)
    (h : store key = none) : cleanupRateLimit s store key = none := by
  simp [cleanupRateLimit, h]

theorem set_same (store : Store) (key : String) (w : RateLimitWindow) :
    store.set key w key = some w := by
  simp [Store.set]

theorem set_other (store : Store) {key key2 : String} (w : RateLimitWindow) (h : key2 ≠ key) :
    store.set key w key2 = store key2 := by
  simp [Store.set, h]

theorem rateLimitKey_injective {a b : String}
    (h : rateLimitKey (some a) = rateLimitKey (some b)) : a = b := by
  have h2 := congrArg String.data h
  simp only [rateLimitKey, String.data_append] at h2
  exact String.ext (List.append_cancel_left h2)

theorem runCalls_cons (env : Env) (c : Call) (cs : List Call) (store : Store) :
    runCalls env (c :: cs) store =
      ((checkRateLimit c.request env c.sweepNow c.now store).1 ::
          (runCalls env cs (checkRateLimit c.request env c.sweepNow c.now store).2).1,
        (runCalls env cs (checkRateLimit c.request env c.sweepNow c.now store).2).2) := rfl

theorem runCalls_length (env : Env) (calls : List Call) :
    ∀ store : Store, (runCalls env calls store).1.length = calls.length := by
  induction calls with
  | nil => intro store; rfl
  | cons c cs ih => intro store; simp [runCalls_cons, ih]

theorem runCalls_append (env : Env) (pre post : List Call) :
    ∀ store : Store, runCalls env (pre ++ post) store =
      ((runCalls env pre store).1 ++ (runCalls env post (runCalls env pre store).2).1,
        (runCalls env post (runCalls env pre store).2).2) := by
  induction pre with
  | nil => intro store; rfl
  | cons c cs ih => intro store; simp [runCalls_cons, ih]

theorem mem_instants {x : Nat} {calls : List Call} :
    x ∈ instants calls ↔ ∃ d ∈ calls, x = d.sweepNow ∨ x = d.now := by
  induction calls with
  | nil => simp [instants]
  | cons c cs ih =>
    simp only [instants, List.mem_cons, ih]
    constructor
    · rintro (h | h | ⟨d, hd, h⟩)
      · exact ⟨c, Or.inl rfl, Or.inl h⟩
      · exact ⟨c, Or.inl rfl, Or.inr h⟩
      · exact ⟨d, Or.inr hd, h⟩
    · rintro ⟨d, hd | hd, h⟩
      · subst hd
        rcases h with h | h
        · exact Or.inl h
        · exact Or.inr (Or.inl h)
      · exact Or.inr (Or.inr ⟨d, hd, h⟩)

theorem nonDecreasing_cons {c : Call} {cs : List Call} (h : NonDecreasing (c :: cs)) :
    c.sweepNow ≤ c.now ∧ (∀ d ∈ cs, c.now ≤ d.sweepNow ∧ c.now ≤ d.now) ∧ NonDecreasing cs := by
  unfold NonDecreasing at h
  simp only [instants, List.pairwise_cons] at h
  obtain ⟨h1, h2, h3⟩ := h
  refine ⟨h1 _ (List.mem_cons_self _ _), fun d hd => ⟨?_, ?_⟩, h3⟩
  · exact h2 _ (mem_instants.mpr ⟨d, hd, Or.inl rfl⟩)
  · exact h2 _ (mem_instants.mpr ⟨d, hd, Or.inr rfl⟩)

theorem nonDecreasing_sweep_le {calls : List Call} (h : NonDecreasing calls) :
    ∀ c ∈ calls, c.sweepNow ≤ c.now := by
  induction calls with
  | nil => intro c hc; cases hc
  | cons a cs ih =>
    obtain ⟨h1, _, h3⟩ := nonDecreasing_cons h
    intro c hc
    rcases List.mem_cons.mp hc with rfl | hc
    · exact h1
    · exact ih h3 c hc

theorem nonDecreasing_le_last {calls : List Call} (h : NonDecreasing calls) {l : Call}
    (hl : calls.getLast? = some l) : ∀ c ∈ calls, c.now ≤ l.now := by
  induction calls with
  | nil => intro c hc; cases hc
  | cons a cs ih =>
    obtain ⟨_, h2, h3⟩ := nonDecreasing_cons h
    intro c hc
    cases cs with
    | nil =>
      simp at hl hc
      subst hl; subst hc; exact le_rfl
    | cons b bs =>
      rw [List.getLast?_cons_cons] at hl
      rcases List.mem_cons.mp hc with rfl | hc
      · exact (h2 l (List.mem_of_getLast?_eq_some hl)).2
      · exact ih h3 hl c hc

/-- Calls for one credential that all fall inside its current window: the first
`maxRequests - n` are allowed, the others rejected, and the count grows by the
number of allowed calls. -/
theorem run_in_window (env : Env) {k : String} (hne : k ≠ "") (R : Nat) :
    ∀ (calls : List Call) (store : Store) (n : Nat),
      store (rateLimitKey (some k)) = some ⟨n, R⟩ →
      (∀ c ∈ calls, apiKeyOf c.request = some k ∧ c.sweepNow ≤ c.now ∧ c.now ≤ R) →
      (runCalls env calls store).1 =
          List.replicate (min calls.length (maxRequests - n)) none ++
            List.replicate (calls.length - (maxRequests - n)) (some (rateLimitExceeded R)) ∧
        (runCalls env calls store).2 (rateLimitKey (some k)) =
          some ⟨n + min calls.length (maxRequests - n), R⟩ := by
  intro calls
  induction calls with
  | nil => intro store n hst _; simp [runCalls, hst]
  | cons c cs ih =>
    intro store n hst hall
    obtain ⟨hk, hs, ht⟩ := hall c (List.mem_cons_self _ _)
    have hrest : ∀ d ∈ cs, apiKeyOf d.request = some k ∧ d.sweepNow ≤ d.now ∧ d.now ≤ R :=
      fun d hd => hall d (List.mem_cons_of_mem _ hd)
    have hkeep := cleanup_keep hst (show c.sweepNow ≤ (⟨n, R⟩ : RateLimitWindow).resetAt from
      hs.trans ht)
    rw [runCalls_cons, checkRateLimit_of_key hk hne, hkeep]
    simp only [gt_iff_lt, Nat.not_lt.mpr ht, if_false]
    by_cases hfull : n ≥ maxRequests
    · simp only [hfull, if_true]
      obtain ⟨ih1, ih2⟩ := ih (cleanupRateLimit c.sweepNow store) n hkeep hrest
      have hz : maxRequests - n = 0 := by omega
      rw [ih1, ih2, hz]
      simp [List.replicate_succ]
    · simp only [hfull, if_false]
      obtain ⟨ih1, ih2⟩ := ih ((cleanupRateLimit c.sweepNow store).set (rateLimitKey (some k))
        ⟨n + 1, R⟩) (n + 1) (set_same _ _ _) hrest
      obtain ⟨m, hm⟩ : ∃ m, maxRequests - n = m + 1 := ⟨maxRequests - n - 1, by omega⟩
      have hm2 : maxRequests - (n + 1) = m := by omega
      rw [ih1, ih2, hm, hm2]
      refine ⟨?_, ?_⟩
      · simp [List.replicate_succ, Nat.succ_min_succ]
      · simp only [List.length_cons, Nat.succ_min_succ]
        congr 2
        omega

theorem instants_append (pre rest : List Call) :
    instants (pre ++ rest) = instants pre ++ instants rest := by
  induction pre with
  | nil => rfl
  | cons c cs ih => simp [instants, ih]

theorem nonDecreasing_append {pre rest : List Call} (h : NonDecreasing (pre ++ rest)) :
    NonDecreasing pre ∧ NonDecreasing rest ∧
      ∀ d ∈ pre, ∀ e ∈ rest, d.sweepNow ≤ e.sweepNow ∧ d.now ≤ e.sweepNow := by
  unfold NonDecreasing at h
  rw [instants_append, List.pairwise_append] at h
  obtain ⟨h1, h2, h3⟩ := h
  refine ⟨h1, h2, fun d hd e he => ⟨?_, ?_⟩⟩
  · exact h3 _ (mem_instants.mpr ⟨d, hd, Or.inl rfl⟩) _ (mem_instants.mpr ⟨e, he, Or.inl rfl⟩)
  · exact h3 _ (mem_instants.mpr ⟨d, hd, Or.inr rfl⟩) _ (mem_instants.mpr ⟨e, he, Or.inl rfl⟩)

theorem allowedIn_cons (k : String) (lo hi : Nat) (c : Call) (cs : List Call)
    (o : Option Response) (os : List (Option Response)) :
    allowedIn k lo hi (c :: cs) (o :: os) =
      (if isAllowedIn k lo hi (c, o) = true then 1 else 0) + allowedIn k lo hi cs os := by
  simp only [allowedIn, List.zip_cons_cons, List.countP_cons]
  omega

theorem allowedIn_append (k : String) (lo hi : Nat) (pre post : List Call)
    (o1 o2 : List (Option Response)) (hlen : pre.length = o1.length) :
    allowedIn k lo hi (pre ++ post) (o1 ++ o2) =
      allowedIn k lo hi pre o1 + allowedIn k lo hi post o2 := by
  simp only [allowedIn, List.zip_append hlen, List.countP_append]

theorem allowedIn_eq_zero (k : String) (lo hi : Nat) (calls : List Call)
    (outs : List (Option Response)) (h : ∀ c ∈ calls, hi < c.now) :
    allowedIn k lo hi calls outs = 0 := by
  simp only [allowedIn, List.countP_eq_zero]
  intro p hp
  have hmem : p.1 ∈ calls := (List.of_mem_zip (show (p.1, p.2) ∈ calls.zip outs from hp)).1
  simp [isAllowedIn, Nat.not_le.mpr (h _ hmem)]

/-- A call for another credential only sweeps the window of `k`. -/
theorem check_other_key {request : Request} {k2 k : String} (hk : apiKeyOf request = some k2)
    (hne2 : k2 ≠ "") (hdiff : k2 ≠ k) (env : Env) (s t : Nat) (store : Store) :
    (checkRateLimit request env s t store).2 (rateLimitKey (some k)) =
      cleanupRateLimit s store (rateLimitKey (some k)) := by
  have hkey : rateLimitKey (some k) ≠ rateLimitKey (some k2) :=
    fun h => hdiff (rateLimitKey_injective h).symm
  rw [checkRateLimit_of_key hk hne2]
  split
  · exact set_other _ _ hkey
  · split
    · exact set_other _ _ hkey
    · split
      · rfl
      · exact set_other _ _ hkey

/-- A window that has not expired by the time of a call is still there after
it, with the same end. -/
theorem step_persists (request : Request) (env : Env) (s t : Nat) {store : Store} {k : String}
    (hne : k ≠ "") {w : RateLimitWindow} (hst : store (rateLimitKey (some k)) = some w)
    (hs : s ≤ w.resetAt) (ht : t ≤ w.resetAt) :
    ∃ w2, (checkRateLimit request env s t store).2 (rateLimitKey (some k)) = some w2 ∧
      w2.resetAt = w.resetAt := by
  by_cases htr : truthy (apiKeyOf request) = true
  · obtain ⟨k2, hk2⟩ : ∃ k2, apiKeyOf request = some k2 := by
      cases h : apiKeyOf request with
      | none => rw [h] at htr; simp [truthy] at htr
      | some k2 => exact ⟨k2, rfl⟩
    have hne2 : k2 ≠ "" := by
      rw [hk2] at htr; exact (truthy_some k2).mp htr
    by_cases hdiff : k2 = k
    · subst hdiff
      rw [checkRateLimit_of_key hk2 hne2, cleanup_keep hst hs]
      simp only [gt_iff_lt, Nat.not_lt.mpr ht, if_false]
      by_cases hfull : w.count ≥ maxRequests
      · simp only [hfull, if_true]
        exact ⟨w, cleanup_keep hst hs, rfl⟩
      · simp only [hfull, if_false]
        exact ⟨_, set_same _ _ _, rfl⟩
    · rw [check_other_key hk2 hne2 hdiff]
      exact ⟨w, cleanup_keep hst hs, rfl⟩
  · rw [checkRateLimit_of_no_key (by simpa using htr)]
    exact ⟨w, hst, rfl⟩

theorem window_persists (env : Env) {k : String} (hne : k ≠ "") (T : Nat) :
    ∀ (calls : List Call) (store : Store) (w : RateLimitWindow),
      store (rateLimitKey (some k)) = some w → T ≤ w.resetAt →
      (∀ c ∈ calls, c.sweepNow ≤ T ∧ c.now ≤ T) →
      ∃ w2, (runCalls env calls store).2 (rateLimitKey (some k)) = some w2 ∧
        w2.resetAt = w.resetAt := by
  intro calls
  induction calls with
  | nil => intro store w hst _ _; exact ⟨w, hst, rfl⟩
  | cons c cs ih =>
    intro store w hst hT hall
    obtain ⟨hs, ht⟩ := hall c (List.mem_cons_self _ _)
    obtain ⟨w1, hw1, hr1⟩ := step_persists c.request env c.sweepNow c.now hne hst
      (hs.trans hT) (ht.trans hT)
    obtain ⟨w2, hw2, hr2⟩ := ih _ w1 hw1 (hr1 ▸ hT) (fun d hd => hall d (List.mem_cons_of_mem _ hd))
    exact ⟨w2, by rw [runCalls_cons]; exact hw2, hr2.trans hr1⟩

/-- After an allowed call the credential has a window that has not yet ended. -/
theorem allowed_leaves_window {request : Request} {k : String} (hk : apiKeyOf request = some k)
    (hne : k ≠ "") (env : Env) (s t : Nat) (store : Store)
    (hnull : (checkRateLimit request env s t store).1 = none) :
    ∃ w, (checkRateLimit request env s t store).2 (rateLimitKey (some k)) = some w ∧
      t ≤ w.resetAt := by
  rw [checkRateLimit_of_key hk hne] at hnull ⊢
  cases hc : cleanupRateLimit s store (rateLimitKey (some k)) with
  | none =>
    simp only [hc]
    exact ⟨_, set_same _ _ _, Nat.le_add_right _ _⟩
  | some limit =>
    simp only [hc] at hnull ⊢
    by_cases hexp : t > limit.resetAt
    · simp only [hexp, if_true]
      exact ⟨_, set_same _ _ _, Nat.le_add_right _ _⟩
    · simp only [hexp, if_false] at hnull ⊢
      by_cases hfull : limit.count ≥ maxRequests
      · simp only [hfull, if_true] at hnull
        cases hnull
      · simp only [hfull, if_false]
        exact ⟨_, set_same _ _ _, Nat.not_lt.mp hexp⟩

theorem apiKey_of_truthy {request : Request} (h : truthy (apiKeyOf request) = true) :
    ∃ k, apiKeyOf request = some k ∧ k ≠ "" := by
  cases hk : apiKeyOf request with
  | none => rw [hk] at h; simp [truthy] at h
  | some k => rw [hk] at h; exact ⟨k, rfl, (truthy_some k).mp h⟩

/-- Calls that all happen by instant `T`: either none of them is an admission of
`k` at `T` or later, or `k` ends with a window that has not ended by `T`. -/
theorem no_earlier_admission (env : Env) {k : String} (hne : k ≠ "") (T hi : Nat) :
    ∀ (pre : List Call) (store : Store),
      (∀ c ∈ pre, c.sweepNow ≤ T ∧ c.now ≤ T) →
      allowedIn k T hi pre (runCalls env pre store).1 = 0 ∨
        ∃ w, (runCalls env pre store).2 (rateLimitKey (some k)) = some w ∧ T ≤ w.resetAt := by
  intro pre
  induction pre with
  | nil => intro store _; left; rfl
  | cons c cs ih =>
    intro store hall
    obtain ⟨hs, ht⟩ := hall c (List.mem_cons_self _ _)
    have hrest : ∀ d ∈ cs, d.sweepNow ≤ T ∧ d.now ≤ T :=
      fun d hd => hall d (List.mem_cons_of_mem _ hd)
    rw [runCalls_cons, allowedIn_cons]
    rcases ih (checkRateLimit c.request env c.sweepNow c.now store).2 hrest with h0 | hw
    · by_cases hcount :
          isAllowedIn k T hi (c, (checkRateLimit c.request env c.sweepNow c.now store).1) = true
      · right
        simp only [isAllowedIn, Bool.and_eq_true, decide_eq_true_eq, Option.isNone_iff_eq_none]
          at hcount
        obtain ⟨⟨⟨hk, hnull⟩, hlo⟩, _⟩ := hcount
        obtain ⟨w, hw, hle⟩ := allowed_leaves_window hk hne env c.sweepNow c.now store hnull
        obtain ⟨w2, hw2, hr2⟩ := window_persists env hne T cs _ w hw (hlo.trans hle) hrest
        exact ⟨w2, hw2, hr2 ▸ hlo.trans hle⟩
      · left
        simp [hcount, h0]
    · right
      exact hw

/-- The admissions of `k` up to the end `R` of its current window never exceed
what is left of the window's budget. -/
theorem allowed_le_budget (env : Env) {k : String} (hne : k ≠ "") (lo R : Nat) :
    ∀ (calls : List Call) (store : Store) (n : Nat),
      store (rateLimitKey (some k)) = some ⟨n, R⟩ → NonDecreasing calls →
      allowedIn k lo R calls (runCalls env calls store).1 ≤ maxRequests - n := by
  intro calls
  induction calls with
  | nil => intro store n _ _; simp [allowedIn]
  | cons c cs ih =>
    intro store n hst hmono
    obtain ⟨hsweep, hlater, hmono2⟩ := nonDecreasing_cons hmono
    rw [runCalls_cons, allowedIn_cons]
    have hzero : R < c.now → ∀ st : Store, allowedIn k lo R cs (runCalls env cs st).1 = 0 :=
      fun hlt st => allowedIn_eq_zero k lo R cs _ (fun d hd => hlt.trans_le (hlater d hd).2)
    by_cases htr : truthy (apiKeyOf c.request) = true
    · obtain ⟨k2, hk2, hne2⟩ := apiKey_of_truthy htr
      by_cases hdiff : k2 = k
      · subst hdiff
        by_cases hin : c.now ≤ R
        · have hkeep := cleanup_keep hst (show c.sweepNow ≤ (⟨n, R⟩ : RateLimitWindow).resetAt
            from hsweep.trans hin)
          rw [checkRateLimit_of_key hk2 hne2, hkeep]
          simp only [gt_iff_lt, Nat.not_lt.mpr hin, if_false]
          by_cases hfull : n ≥ maxRequests
          · simp only [hfull, if_true]
            have := ih (cleanupRateLimit c.sweepNow store) n hkeep hmono2
            simp only [isAllowedIn, Option.isNone_some, Bool.and_false, Bool.false_and]
            simpa using this
          · simp only [hfull, if_false]
            have := ih ((cleanupRateLimit c.sweepNow store).set (rateLimitKey (some k2))
              ⟨n + 1, R⟩) (n + 1) (set_same _ _ _) hmono2
            split <;> omega
        · have hlt : R < c.now := Nat.lt_of_not_le hin
          rw [hzero hlt]
          simp [isAllowedIn, hin]
      · have hnot : isAllowedIn k lo R
            (c, (checkRateLimit c.request env c.sweepNow c.now store).1) = false := by
          simp [isAllowedIn, hk2, hdiff]
        rw [hnot]
        by_cases hin : c.sweepNow ≤ R
        · have hkeep := cleanup_keep hst (show c.sweepNow ≤ (⟨n, R⟩ : RateLimitWindow).resetAt
            from hin)
          have := ih _ n ((check_other_key hk2 hne2 hdiff env c.sweepNow c.now store).trans hkeep)
            hmono2
          simpa using this
        · rw [hzero (Nat.lt_of_lt_of_le (Nat.lt_of_not_le hin) hsweep)]
          simp
    · have hnone : truthy (apiKeyOf c.request) = false := by simpa using htr
      have hnot : isAllowedIn k lo R
          (c, (checkRateLimit c.request env c.sweepNow c.now store).1) = false := by
        have : apiKeyOf c.request ≠ some k := by
          intro h; rw [h] at hnone; simp [truthy, hne] at hnone
        simp [isAllowedIn, this]
      rw [hnot, checkRateLimit_of_no_key hnone]
      simpa using ih store n hst hmono2

/-- The bound of a fixed window from any starting store: when call `c` stores a
new window for `k`, at most `maxRequests` admissions of `k` in the whole
sequence have their instant between `c.now` and the end of that window. -/
theorem window_bound (env : Env) {k : String} (hne : k ≠ "") (pre post : List Call) (c : Call)
    (store : Store) (hk : apiKeyOf c.request = some k)
    (hmono : NonDecreasing (pre ++ c :: post))
    (hcreate : createsWindow c (runCalls env pre store).2 = true) :
    allowedIn k c.now (c.now + windowMs) (pre ++ c :: post)
      (runCalls env (pre ++ c :: post) store).1 ≤ maxRequests := by
  obtain ⟨_, hmono2, hcross⟩ := nonDecreasing_append hmono
  obtain ⟨hsweep, _, hmono3⟩ := nonDecreasing_cons hmono2
  have hpre : ∀ d ∈ pre, d.sweepNow ≤ c.now ∧ d.now ≤ c.now := fun d hd =>
    ⟨(hcross d hd c (List.mem_cons_self _ _)).1.trans hsweep,
      (hcross d hd c (List.mem_cons_self _ _)).2.trans hsweep⟩
  -- the call `c` takes a creating branch
  have hfresh : checkRateLimit c.request env c.sweepNow c.now (runCalls env pre store).2 =
      (none, (cleanupRateLimit c.sweepNow (runCalls env pre store).2).set (rateLimitKey (some k))
        ⟨1, c.now + windowMs⟩) := by
    rw [checkRateLimit_of_key hk hne]
    simp only [createsWindow, hk, Bool.and_eq_true] at hcreate
    cases hc : cleanupRateLimit c.sweepNow (runCalls env pre store).2 (rateLimitKey (some k)) with
    | none => rfl
    | some limit =>
      rw [hc] at hcreate
      have : c.now > limit.resetAt := by simpa using hcreate.2
      simp [this]
  rw [runCalls_append, allowedIn_append _ _ _ _ _ _ _ (runCalls_length env pre store).symm,
    runCalls_cons, allowedIn_cons, hfresh]
  -- nothing before `c` is counted
  have hbefore : allowedIn k c.now (c.now + windowMs) pre (runCalls env pre store).1 = 0 := by
    rcases no_earlier_admission env hne c.now (c.now + windowMs) pre store hpre with h0 | ⟨w, hw, hle⟩
    · exact h0
    · exfalso
      simp only [createsWindow, hk, Bool.and_eq_true] at hcreate
      rw [cleanup_keep hw (hsweep.trans hle)] at hcreate
      have : c.now > w.resetAt := by simpa using hcreate.2
      omega
  have hafter := allowed_le_budget env hne c.now (c.now + windowMs) post
    ((cleanupRateLimit c.sweepNow (runCalls env pre store).2).set (rateLimitKey (some k))
      ⟨1, c.now + windowMs⟩) 1 (set_same _ _ _) hmono3
  rw [hbefore]
  have hmax : maxRequests = 100 := rfl
  rw [hmax] at hafter ⊢
  dsimp only
  split <;> omega

/-! ## The rate limiter: first window -/

/-- Claim C1. For a credential with no stored window and 101 calls carrying it
at non-decreasing instants, the last no later than 60000 ms after the first,
`checkRateLimit` returns `null` for calls 1 to 100 and a 429 response for
call 101. -/
theorem first_hundred_allowed_then_rejected (env : Env) (k : String) (hne : k ≠ "")
    (store : Store) (hnone : store (rateLimitKey (some k)) = none) (calls : List Call)
    (hlen : calls.length = 101) (hkey : ∀ c ∈ calls, apiKeyOf c.request = some k)
    (hmono : NonDecreasing calls)
    (hwin : ∀ first ∈ calls.head?, ∀ last ∈ calls.getLast?, last.now ≤ first.now + 60000) :
    ∃ r : Response, r.status = 429 ∧
      (runCalls env calls store).1 = List.replicate 100 none ++ [some r] := by
  cases calls with
  | nil => simp at hlen
  | cons first rest =>
    have hrlen : rest.length = 100 := by simpa using hlen
    obtain ⟨last, hlast⟩ : ∃ last, (first :: rest).getLast? = some last :=
      ⟨_, List.getLast?_eq_getLast _ (List.cons_ne_nil _ _)⟩
    have hle : last.now ≤ first.now + 60000 := hwin first rfl last hlast
    have hrest : ∀ c ∈ rest, apiKeyOf c.request = some k ∧ c.sweepNow ≤ c.now ∧
        c.now ≤ first.now + windowMs := fun c hc =>
      ⟨hkey c (List.mem_cons_of_mem _ hc),
        nonDecreasing_sweep_le hmono c (List.mem_cons_of_mem _ hc),
        (nonDecreasing_le_last hmono hlast c (List.mem_cons_of_mem _ hc)).trans hle⟩
    obtain ⟨h1, _⟩ := run_in_window env hne (first.now + windowMs) rest
      ((cleanupRateLimit first.sweepNow store).set (rateLimitKey (some k))
        ⟨1, first.now + windowMs⟩) 1 (set_same _ _ _) hrest
    refine ⟨rateLimitExceeded (first.now + windowMs), rfl, ?_⟩
    rw [runCalls_cons, checkRateLimit_of_key (hkey first (List.mem_cons_self _ _)) hne,
      cleanup_none _ hnone]
    simp only [h1, hrlen, maxRequests]
    rfl

/-- Claim C2. For a credential with a stored window of any count and an instant
`now` after its `resetAt`, `checkRateLimit` returns `null` and afterwards the
credential's window is exactly `{ count: 1, resetAt: now + 60000 }`. -/
theorem expired_window_is_replaced (request : Request) (env : Env) (k : String)
    (hk : apiKeyOf request = some k) (hne : k ≠ "") (sweepNow now : Nat) (store : Store)
    (w : RateLimitWindow) (hst : store (rateLimitKey (some k)) = some w)
    (hexp : now > w.resetAt) :
    (checkRateLimit request env sweepNow now store).1 = none ∧
      (checkRateLimit request env sweepNow now store).2 (rateLimitKey (some k)) =
        some { count := 1, resetAt := now + 60000 } := by
  rw [checkRateLimit_of_key hk hne]
  by_cases hs : sweepNow ≤ w.resetAt
  · rw [cleanup_keep hst hs]
    simp [hexp, Store.set, windowMs]
  · rw [cleanup_drop hst (Nat.lt_of_not_le hs)]
    simp [Store.set, windowMs]

/-- Claim C3. In a sequence of `checkRateLimit` calls (any mix of credentials)
at non-decreasing instants from the empty store, whenever a call stores a new
window for a credential at instant `t`, at most `maxRequests` = 100 calls for
that credential with instants in `[t, t + 60000]` are allowed. -/
theorem at_most_max_per_window (env : Env) (k : String) (hne : k ≠ "")
    (pre post : List Call) (c : Call) (hk : apiKeyOf c.request = some k)
    (hmono : NonDecreasing (pre ++ c :: post))
    (hcreate : createsWindow c (runCalls env pre emptyStore).2 = true) :
    allowedIn k c.now (c.now + 60000) (pre ++ c :: post)
      (runCalls env (pre ++ c :: post) emptyStore).1 ≤ 100 :=
  window_bound env hne pre post c emptyStore hk hmono hcreate

/-! ## The credential validator -/

/-- Claim C4. For every request and configuration, the outcome of
`validateApiKey` is the outcome of the rules of the specification applied in
order to the presented credential, the loopback flag, the development-mode
flag and the expected credential: `null` for `Allow`, a 401 response for
`Deny`, a 500 response for `MisconfiguredServer`. -/
theorem validateApiKey_follows_spec_rules (request : Request) (env : Env) :
    (validateApiKey request env).map (fun r => r.status) =
      (Spec.validate (apiKeyOf request) (isLocalhost request) (isDevelopment env)
        (expectedKeyOf env)).status := by
  unfold validateApiKey Spec.validate
  simp only [absent_eq_not_truthy]
  by_cases h5 : apiKeyOf request = expectedKeyOf env <;>
    cases isDevelopment env <;> cases isLocalhost request <;>
    cases truthy (apiKeyOf request) <;> cases truthy (expectedKeyOf env) <;>
    simp [Spec.Decision.status, errorResponse, h5]

/-- Claim C5, refuted as stated. With no expected credential configured, a
non-empty credential is allowed in development mode and answered with 500
outside it, never with 401. -/
theorem unconfigured_server_does_not_deny :
    apiKeyOf ⟨[("x-api-key", "wrong")]⟩ = some "wrong" ∧
      expectedKeyOf ⟨some "development", none, none⟩ = none ∧
      validateApiKey ⟨[("x-api-key", "wrong")]⟩ ⟨some "development", none, none⟩ = none ∧
      (validateApiKey ⟨[("x-api-key", "wrong")]⟩ ⟨some "production", none, none⟩).map
        (fun r => r.status) = some 500 := by
  decide

/-- Claim C5, amended. When an expected credential is configured (set and
non-empty), whatever the development-mode and loopback flags: a presented
non-empty string that differs from it gets a 401 response, and presenting it
gets `null` (allowed), in both copies of `validateApiKey`. -/
theorem configured_key_decides (request : Request) (env : Env) (e p : String)
    (he : expectedKeyOf env = some e) (hene : e ≠ "") (hp : apiKeyOf request = some p)
    (hpne : p ≠ "") :
    (p ≠ e →
      (ApiAuth.validateApiKey request env).map (fun r => r.status) = some 401 ∧
      (ExternalApiAuth.validateApiKey request env).map (fun r => r.status) = some 401) ∧
    (p = e →
      ApiAuth.validateApiKey request env = none ∧
      ExternalApiAuth.validateApiKey request env = none) := by
  constructor
  · intro hdiff
    simp [ApiAuth.validateApiKey, ExternalApiAuth.validateApiKey, he, hp, truthy, hene, hpne,
      hdiff, errorResponse]
  · intro hsame
    simp [ApiAuth.validateApiKey, ExternalApiAuth.validateApiKey, he, hp, truthy, hene, hpne,
      hsame]

/-! ## The gateway sequence of the verify endpoint -/

/-- Claim C6. When `validateApiKey` returns an error response (missing or
invalid credential, misconfigured server), the gateway sequence of `POST`
leaves the rate-limit store as it was: no window is created, incremented,
reset or swept. -/
theorem auth_error_leaves_store_unchanged (request : Request) (env : Env)
    (body : Option JsValue) (db : Db) (sweepNow now headersNow : Nat) (store : Store)
    (r : Response) (h : validateApiKey request env = some r) :
    (Verify.POST request env body db sweepNow now headersNow store).2.1 = store := by
  simp [Verify.POST, h]

/-- Claim C7. When `validateApiKey` returns an error response, or it allows the
request and `checkRateLimit` returns one, `POST` returns exactly that response
and performs no action of the business handler: the body is not read and no
database query is issued. -/
theorem gateway_error_is_terminal (request : Request) (env : Env)
    (body : Option JsValue) (db : Db) (sweepNow now headersNow : Nat) (store : Store)
    (r : Response)
    (h : validateApiKey request env = some r ∨
      (validateApiKey request env = none ∧
        (checkRateLimit request env sweepNow now store).1 = some r)) :
    (Verify.POST request env body db sweepNow now headersNow store).1 = r ∧
      (Verify.POST request env body db sweepNow now headersNow store).2.2 = [] := by
  rcases h with h | ⟨h1, h2⟩
  · simp [Verify.POST, h]
  · unfold Verify.POST
    rw [h1]
    cases hc : checkRateLimit request env sweepNow now store with
    | mk out st =>
      rw [hc] at h2
      simp only at h2
      subst h2
      exact ⟨rfl, rfl⟩

/-! ## The rate limiter: rejections and counting -/

/-- Claim C8. For a credential whose window has not expired (`now ≤ resetAt`)
and has `count ≥ maxRequests`, `checkRateLimit` returns a 429 response and the
credential's window keeps the same count and the same `resetAt`. -/
theorem rejected_attempt_not_counted (request : Request) (env : Env) (k : String)
    (hk : apiKeyOf request = some k) (hne : k ≠ "") (sweepNow now : Nat) (store : Store)
    (w : RateLimitWindow) (hst : store (rateLimitKey (some k)) = some w)
    (hclock : sweepNow ≤ now) (hin : now ≤ w.resetAt) (hfull : w.count ≥ maxRequests) :
    (∃ r, (checkRateLimit request env sweepNow now store).1 = some r ∧ r.status = 429) ∧
      (checkRateLimit request env sweepNow now store).2 (rateLimitKey (some k)) = some w := by
  have hkeep := cleanup_keep hst (hclock.trans hin)
  rw [checkRateLimit_of_key hk hne, hkeep]
  simp only [gt_iff_lt, Nat.not_lt.mpr hin, if_false, hfull, if_true]
  exact ⟨⟨_, rfl, rfl⟩, hkeep⟩

/-- Claim C9. For a credential whose window has count `c` (0 when it has no
window) and `N ≤ 100 - c` calls carrying it, run one after another at instants
inside the window (ending at `R`: the stored `resetAt`, or that of the window
the first call creates), every call is allowed and the stored count ends as
`c + N` exactly. -/
theorem admissions_within_budget_all_counted (env : Env) (k : String) (hne : k ≠ "")
    (store : Store) (calls : List Call) (R : Nat)
    (hkey : ∀ c ∈ calls, apiKeyOf c.request = some k)
    (hsome : ∀ w, store (rateLimitKey (some k)) = some w → w.resetAt = R)
    (hnone : store (rateLimitKey (some k)) = none →
      ∀ first ∈ calls.head?, R = first.now + 60000)
    (hwin : ∀ c ∈ calls, c.sweepNow ≤ c.now ∧ c.now ≤ R)
    (hN : calls.length ≤ 100 - countOf store (rateLimitKey (some k))) :
    (runCalls env calls store).1 = List.replicate calls.length none ∧
      countOf (runCalls env calls store).2 (rateLimitKey (some k)) =
        countOf store (rateLimitKey (some k)) + calls.length := by
  have hall : ∀ c ∈ calls, apiKeyOf c.request = some k ∧ c.sweepNow ≤ c.now ∧ c.now ≤ R :=
    fun c hc => ⟨hkey c hc, hwin c hc⟩
  cases hst : store (rateLimitKey (some k)) with
  | some w =>
    obtain ⟨n, R2⟩ := w
    have hR : R2 = R := hsome _ hst
    subst hR
    have hcount : countOf store (rateLimitKey (some k)) = n := by simp [countOf, hst]
    have hN2 : calls.length ≤ maxRequests - n := by
      rw [hcount] at hN
      exact hN
    obtain ⟨h1, h2⟩ := run_in_window env hne R2 calls store n hst hall
    rw [h1, hcount]
    simp only [countOf, h2, Nat.min_eq_left hN2, Nat.sub_eq_zero_of_le hN2]
    simp
  | none =>
    have hcount : countOf store (rateLimitKey (some k)) = 0 := by simp [countOf, hst]
    rw [hcount] at hN ⊢
    cases calls with
    | nil => simp [runCalls, countOf, hst]
    | cons first rest =>
      have hR : R = first.now + windowMs := hnone hst first rfl
      have hN2 : rest.length ≤ maxRequests - 1 := by
        simp only [List.length_cons] at hN
        simp only [maxRequests]
        omega
      obtain ⟨h1, h2⟩ := run_in_window env hne R rest
        ((cleanupRateLimit first.sweepNow store).set (rateLimitKey (some k)) ⟨1, R⟩) 1
        (set_same _ _ _) (fun c hc => hall c (List.mem_cons_of_mem _ hc))
      rw [runCalls_cons, checkRateLimit_of_key (hkey first (List.mem_cons_self _ _)) hne,
        cleanup_none _ hst, ← hR]
      simp only [h1, countOf, h2, Nat.min_eq_left hN2, Nat.sub_eq_zero_of_le hN2,
        List.length_cons]
      refine ⟨by simp [List.replicate_succ], by omega⟩

theorem cleanup_some {store : Store} {key : String} {w : RateLimitWindow} {s : Nat}
    (h : cleanupRateLimit s store key = some w) : store key = some w := by
  unfold cleanupRateLimit at h
  cases hst : store key with
  | none => rw [hst] at h; cases h
  | some v =>
    rw [hst] at h
    by_cases hv : s > v.resetAt
    · simp [hv] at h
    · simpa [hv] using h

/-- Claim C10. Every rejection by `checkRateLimit` is a response with status
429, body `{ error: 'Rate limit exceeded', resetAt: R }` and headers
`X-RateLimit-Limit = '100'`, `X-RateLimit-Remaining = '0'`,
`X-RateLimit-Reset = R`, where `R` is the ISO-8601 rendering of the `resetAt`
stored for the request's credential. -/
theorem rejection_is_429_with_reset (request : Request) (env : Env) (sweepNow now : Nat)
    (store : Store) (r : Response)
    (h : (checkRateLimit request env sweepNow now store).1 = some r) :
    ∃ w, store (rateLimitKey (apiKeyOf request)) = some w ∧
      (checkRateLimit request env sweepNow now store).2 (rateLimitKey (apiKeyOf request)) =
        some w ∧
      r.status = 429 ∧
      r.body = [("error", .scalar (.str "Rate limit exceeded")),
                ("resetAt", .scalar (.str (toISOString w.resetAt)))] ∧
      r.headers = [("X-RateLimit-Limit", "100"), ("X-RateLimit-Remaining", "0"),
                   ("X-RateLimit-Reset", toISOString w.resetAt)] := by
  by_cases htr : truthy (apiKeyOf request) = true
  · obtain ⟨k, hk, hne⟩ := apiKey_of_truthy htr
    rw [checkRateLimit_of_key hk hne] at h ⊢
    rw [hk]
    cases hc : cleanupRateLimit sweepNow store (rateLimitKey (some k)) with
    | none => rw [hc] at h; cases h
    | some limit =>
      simp only [hc] at h ⊢
      by_cases hexp : now > limit.resetAt
      · simp only [hexp, if_true] at h; cases h
      · simp only [hexp, if_false] at h ⊢
        by_cases hfull : limit.count ≥ maxRequests
        · simp only [hfull, if_true] at h ⊢
          cases h
          exact ⟨limit, cleanup_some hc, hc, rfl, rfl, rfl⟩
        · simp only [hfull, if_false] at h; cases h
  · rw [checkRateLimit_of_no_key (by simpa using htr)] at h
    cases h

/-! ## Concrete runs -/

set_option maxRecDepth 200000

/-- Claim C1 at 101 calls, 500 ms apart, for the credential `k1` on the empty
store. -/
theorem first_hundred_allowed_then_rejected_witness :
    ∃ r : Response, r.status = 429 ∧
      (runCalls ⟨none, some "k1", none⟩
        ((List.range 101).map fun i => ⟨⟨[("x-api-key", "k1")]⟩, 1000 + 500 * i, 1001 + 500 * i⟩)
        emptyStore).1 = List.replicate 100 none ++ [some r] :=
  first_hundred_allowed_then_rejected ⟨none, some "k1", none⟩ "k1" (by decide) emptyStore rfl
    ((List.range 101).map fun i => ⟨⟨[("x-api-key", "k1")]⟩, 1000 + 500 * i, 1001 + 500 * i⟩)
    (by simp) (by decide) (by decide) (by decide)

/-- Claim C2 at a full window that ended at 5000, with a call at 5001. -/
theorem expired_window_is_replaced_witness :
    (checkRateLimit ⟨[("x-api-key", "k1")]⟩ ⟨none, some "k1", none⟩ 5001 5001
        (emptyStore.set "rate_limit:k1" ⟨100, 5000⟩)).1 = none ∧
      (checkRateLimit ⟨[("x-api-key", "k1")]⟩ ⟨none, some "k1", none⟩ 5001 5001
        (emptyStore.set "rate_limit:k1" ⟨100, 5000⟩)).2 (rateLimitKey (some "k1")) =
        some { count := 1, resetAt := 5001 + 60000 } :=
  expired_window_is_replaced ⟨[("x-api-key", "k1")]⟩ ⟨none, some "k1", none⟩ "k1" (by decide)
    (by decide) 5001 5001 (emptyStore.set "rate_limit:k1" ⟨100, 5000⟩) ⟨100, 5000⟩ (by decide)
    (by decide)

/-- Claim C3 at three calls: one for `k2`, then two for `k1`, the first of
which creates the window of `k1`. -/
theorem at_most_max_per_window_witness :
    allowedIn "k1" 20 (20 + 60000)
      ([⟨⟨[("x-api-key", "k2")]⟩, 10, 10⟩] ++
        ⟨⟨[("x-api-key", "k1")]⟩, 20, 20⟩ :: [⟨⟨[("x-api-key", "k1")]⟩, 30, 30⟩])
      (runCalls ⟨none, none, none⟩
        ([⟨⟨[("x-api-key", "k2")]⟩, 10, 10⟩] ++
          ⟨⟨[("x-api-key", "k1")]⟩, 20, 20⟩ :: [⟨⟨[("x-api-key", "k1")]⟩, 30, 30⟩])
        emptyStore).1 ≤ 100 :=
  at_most_max_per_window ⟨none, none, none⟩ "k1" (by decide)
    [⟨⟨[("x-api-key", "k2")]⟩, 10, 10⟩] [⟨⟨[("x-api-key", "k1")]⟩, 30, 30⟩]
    ⟨⟨[("x-api-key", "k1")]⟩, 20, 20⟩ (by decide) (by decide) (by decide)

/-- Claim C5, amended, at the expected credential `secret`, presented with
`Secret`: the comparison is case-sensitive. -/
theorem configured_key_decides_witness :
    (ApiAuth.validateApiKey ⟨[("x-api-key", "Secret")]⟩ ⟨some "development", some "secret", none⟩).map
        (fun r => r.status) = some 401 ∧
      (ExternalApiAuth.validateApiKey ⟨[("x-api-key", "Secret")]⟩
        ⟨some "development", some "secret", none⟩).map (fun r => r.status) = some 401 :=
  (configured_key_decides ⟨[("x-api-key", "Secret")]⟩ ⟨some "development", some "secret", none⟩
    "secret" "Secret" (by decide) (by decide) (by decide) (by decide)).1 (by decide)

/-- Claim C6 at a request with a wrong credential and a store that holds a
window: the store is returned as it was. -/
theorem auth_error_leaves_store_unchanged_witness :
    (Verify.POST ⟨[("x-api-key", "wrong")]⟩ ⟨none, some "secret", none⟩
        (some (.obj [("work_request_id", .num 42)])) ⟨true, fun _ => some []⟩ 7000 7000 7000
        (emptyStore.set "rate_limit:wrong" ⟨3, 5000⟩)).2.1 =
      emptyStore.set "rate_limit:wrong" ⟨3, 5000⟩ :=
  auth_error_leaves_store_unchanged ⟨[("x-api-key", "wrong")]⟩ ⟨none, some "secret", none⟩
    (some (.obj [("work_request_id", .num 42)])) ⟨true, fun _ => some []⟩ 7000 7000 7000
    (emptyStore.set "rate_limit:wrong" ⟨3, 5000⟩)
    (errorResponse "Unauthorized - Invalid API key" 401) (by decide)

/-- Claim C7 at a valid credential whose window is full: `POST` returns the 429
response and the handler does nothing. -/
theorem gateway_error_is_terminal_witness :
    (Verify.POST ⟨[("x-api-key", "secret")]⟩ ⟨none, some "secret", none⟩
        (some (.obj [("work_request_id", .num 42)])) ⟨true, fun _ => some []⟩ 4000 4000 4000
        (emptyStore.set "rate_limit:secret" ⟨100, 5000⟩)).1 = rateLimitExceeded 5000 ∧
      (Verify.POST ⟨[("x-api-key", "secret")]⟩ ⟨none, some "secret", none⟩
        (some (.obj [("work_request_id", .num 42)])) ⟨true, fun _ => some []⟩ 4000 4000 4000
        (emptyStore.set "rate_limit:secret" ⟨100, 5000⟩)).2.2 = [] :=
  gateway_error_is_terminal ⟨[("x-api-key", "secret")]⟩ ⟨none, some "secret", none⟩
    (some (.obj [("work_request_id", .num 42)])) ⟨true, fun _ => some []⟩ 4000 4000 4000
    (emptyStore.set "rate_limit:secret" ⟨100, 5000⟩) (rateLimitExceeded 5000)
    (Or.inr ⟨by decide, by decide⟩)

/-- Claim C8 at a full window ending at 5000 and a call at 4000. -/
theorem rejected_attempt_not_counted_witness :
    (∃ r, (checkRateLimit ⟨[("x-api-key", "k1")]⟩ ⟨none, none, none⟩ 3999 4000
        (emptyStore.set "rate_limit:k1" ⟨100, 5000⟩)).1 = some r ∧ r.status = 429) ∧
      (checkRateLimit ⟨[("x-api-key", "k1")]⟩ ⟨none, none, none⟩ 3999 4000
        (emptyStore.set "rate_limit:k1" ⟨100, 5000⟩)).2 (rateLimitKey (some "k1")) =
        some ⟨100, 5000⟩ :=
  rejected_attempt_not_counted ⟨[("x-api-key", "k1")]⟩ ⟨none, none, none⟩ "k1" (by decide)
    (by decide) 3999 4000 (emptyStore.set "rate_limit:k1" ⟨100, 5000⟩) ⟨100, 5000⟩ (by decide)
    (by decide) (by decide) (by decide)

/-- Claim C9 at a window with count 98 and two calls inside it: both are
allowed and the count ends as 100. -/
theorem admissions_within_budget_all_counted_witness :
    (runCalls ⟨none, none, none⟩
        [⟨⟨[("x-api-key", "k1")]⟩, 4000, 4000⟩, ⟨⟨[("x-api-key", "k1")]⟩, 4000, 4000⟩]
        (emptyStore.set "rate_limit:k1" ⟨98, 5000⟩)).1 = List.replicate 2 none ∧
      countOf (runCalls ⟨none, none, none⟩
        [⟨⟨[("x-api-key", "k1")]⟩, 4000, 4000⟩, ⟨⟨[("x-api-key", "k1")]⟩, 4000, 4000⟩]
        (emptyStore.set "rate_limit:k1" ⟨98, 5000⟩)).2 (rateLimitKey (some "k1")) =
        countOf (emptyStore.set "rate_limit:k1" ⟨98, 5000⟩) (rateLimitKey (some "k1")) + 2 :=
  admissions_within_budget_all_counted ⟨none, none, none⟩ "k1" (by decide)
    (emptyStore.set "rate_limit:k1" ⟨98, 5000⟩)
    [⟨⟨[("x-api-key", "k1")]⟩, 4000, 4000⟩, ⟨⟨[("x-api-key", "k1")]⟩, 4000, 4000⟩] 5000
    (by decide) (by intro w hw; cases hw; rfl) (by intro h; cases h) (by decide) (by decide)

/-- Claim C10 at a full window ending at 1700000000000 ms: the rejection
carries the rendering `2023-11-14T22:13:20.000Z`. -/
theorem rejection_is_429_with_reset_witness :
    ∃ w, (emptyStore.set "rate_limit:k1" ⟨100, 1700000000000⟩)
        (rateLimitKey (apiKeyOf ⟨[("x-api-key", "k1")]⟩)) = some w ∧
      (checkRateLimit ⟨[("x-api-key", "k1")]⟩ ⟨none, none, none⟩ 1699999990000 1699999990000
        (emptyStore.set "rate_limit:k1" ⟨100, 1700000000000⟩)).2
          (rateLimitKey (apiKeyOf ⟨[("x-api-key", "k1")]⟩)) = some w ∧
      (rateLimitExceeded 1700000000000).status = 429 ∧
      (rateLimitExceeded 1700000000000).body =
        [("error", .scalar (.str "Rate limit exceeded")),
         ("resetAt", .scalar (.str (toISOString w.resetAt)))] ∧
      (rateLimitExceeded 1700000000000).headers =
        [("X-RateLimit-Limit", "100"), ("X-RateLimit-Remaining", "0"),
         ("X-RateLimit-Reset", toISOString w.resetAt)] :=
  rejection_is_429_with_reset ⟨[("x-api-key", "k1")]⟩ ⟨none, none, none⟩ 1699999990000
    1699999990000 (emptyStore.set "rate_limit:k1" ⟨100, 1700000000000⟩)
    (rateLimitExceeded 1700000000000) (by decide)

/-! ## The rate-limit headers -/

theorem cleanup_some_le {store : Store} {key : String} {w : RateLimitWindow} {s : Nat}
    (h : cleanupRateLimit s store key = some w) : s ≤ w.resetAt := by
  unfold cleanupRateLimit at h
  cases hst : store key with
  | none => rw [hst] at h; cases h
  | some v =>
    rw [hst] at h
    by_cases hv : s > v.resetAt
    · simp [hv] at h
    · have : v = w := by simpa [hv] using h
      subst this
      exact Nat.not_lt.mp hv

/-- The shape of the store entry of a credential after an admitted call: a
window with a count between 1 and `maxRequests`. -/
theorem admitted_window {request : Request} {k : String} (hk : apiKeyOf request = some k)
    (hne : k ≠ "") (env : Env) (s t : Nat) (store : Store)
    (hnull : (checkRateLimit request env s t store).1 = none) :
    ∃ w, (checkRateLimit request env s t store).2 (rateLimitKey (some k)) = some w ∧
      1 ≤ w.count ∧ w.count ≤ maxRequests := by
  rw [checkRateLimit_of_key hk hne] at hnull ⊢
  cases hc : cleanupRateLimit s store (rateLimitKey (some k)) with
  | none =>
    simp only [hc]
    refine ⟨⟨1, t + windowMs⟩, set_same _ _ _, Nat.le_refl 1, ?_⟩
    simp [maxRequests]
  | some limit =>
    simp only [hc] at hnull ⊢
    by_cases hexp : t > limit.resetAt
    · simp only [hexp, if_true]
      refine ⟨⟨1, t + windowMs⟩, set_same _ _ _, Nat.le_refl 1, ?_⟩
      simp [maxRequests]
    · simp only [hexp, if_false] at hnull ⊢
      by_cases hfull : limit.count ≥ maxRequests
      · simp only [hfull, if_true] at hnull
        cases hnull
      · simp only [hfull, if_false]
        exact ⟨_, set_same _ _ _, Nat.le_add_left _ _, by simp only; omega⟩

theorem remaining_toString (c : Nat) (hc : c ≤ maxRequests) :
    toString (max 0 ((maxRequests : Int) - (c : Int))) = toString (maxRequests - c) := by
  have h : max 0 ((maxRequests : Int) - (c : Int)) = ((maxRequests - c : Nat) : Int) := by
    omega
  rw [h]
  rfl

/-- Claim C11. After a `checkRateLimit` call that admits a request carrying a
credential, `getRateLimitHeaders` read from the resulting store reports
`X-RateLimit-Limit = '100'`, `X-RateLimit-Remaining = 100 - count` for the
stored count (so 99 when the count is 1 and 0 when it is 100) and
`X-RateLimit-Reset` the rendering of the window's `resetAt`. -/
theorem headers_after_admission (request : Request) (env : Env) (k : String)
    (hk : apiKeyOf request = some k) (hne : k ≠ "") (sweepNow now headersNow : Nat)
    (store : Store) (hpass : (checkRateLimit request env sweepNow now store).1 = none) :
    ∃ w, (checkRateLimit request env sweepNow now store).2 (rateLimitKey (some k)) = some w ∧
      1 ≤ w.count ∧ w.count ≤ 100 ∧
      getRateLimitHeaders request headersNow (checkRateLimit request env sweepNow now store).2 =
        [("X-RateLimit-Limit", "100"),
         ("X-RateLimit-Remaining", toString (100 - w.count)),
         ("X-RateLimit-Reset", toISOString w.resetAt)] ∧
      (w.count = 1 → toString (100 - w.count) = "99") ∧
      (w.count = 100 → toString (100 - w.count) = "0") := by
  obtain ⟨w, hw, h1, h100⟩ := admitted_window hk hne env sweepNow now store hpass
  refine ⟨w, hw, h1, h100, ?_, ?_, ?_⟩
  · have htr : truthy (apiKeyOf request) = true := by
      rw [hk]
      exact (truthy_some k).mpr hne
    simp only [getRateLimitHeaders, htr, Bool.not_true, Bool.false_eq_true, if_false]
    rw [hk, hw]
    simp only [remaining_toString w.count h100, toString_maxRequests]
    rfl
  · intro h; rw [h]; decide
  · intro h; rw [h]; decide

/-- Claim C12, refuted as stated. For a request that presents no credential
`getRateLimitHeaders` returns the empty object: none of the three values. -/
theorem no_headers_without_credential :
    apiKeyOf ⟨[("host", "example.org")]⟩ = none ∧
      getRateLimitHeaders ⟨[("host", "example.org")]⟩ 1000
        (emptyStore.set "rate_limit:k1" ⟨3, 5000⟩) = [] := by
  decide

/-- Claim C12, amended. For a request that presents a credential and any store,
`getRateLimitHeaders` reports exactly the three values, also when the
credential has no window yet (limit 100, remaining 99, reset one window from
now); it only reads the store, so the store after an admitted `POST` is the
one `checkRateLimit` left. For a request without a credential it returns no
headers. -/
theorem headers_for_credentialed_requests (request : Request) (now : Nat) (store : Store) :
    (truthy (apiKeyOf request) = true →
      (getRateLimitHeaders request now store).map Prod.fst =
          ["X-RateLimit-Limit", "X-RateLimit-Remaining", "X-RateLimit-Reset"] ∧
        (store (rateLimitKey (apiKeyOf request)) = none →
          getRateLimitHeaders request now store =
            [("X-RateLimit-Limit", "100"), ("X-RateLimit-Remaining", "99"),
             ("X-RateLimit-Reset", toISOString (now + 60000))])) ∧
    (truthy (apiKeyOf request) = false → getRateLimitHeaders request now store = []) ∧
    (∀ (env : Env) (body : Option JsValue) (db : Db) (sweepNow t : Nat),
      validateApiKey request env = none →
      (Verify.POST request env body db sweepNow t now store).2.1 =
        (checkRateLimit request env sweepNow t store).2) := by
  refine ⟨fun htr => ?_, fun hfl => by simp [getRateLimitHeaders, hfl], ?_⟩
  · cases hst : store (rateLimitKey (apiKeyOf request)) with
    | none =>
      have : getRateLimitHeaders request now store =
          [("X-RateLimit-Limit", "100"), ("X-RateLimit-Remaining", "99"),
           ("X-RateLimit-Reset", toISOString (now + 60000))] := by
        simp only [getRateLimitHeaders, htr, Bool.not_true, Bool.false_eq_true, if_false, hst]
        rfl
      exact ⟨by rw [this]; rfl, fun _ => this⟩
    | some limit =>
      refine ⟨?_, fun h => by cases h⟩
      simp only [getRateLimitHeaders, htr, Bool.not_true, Bool.false_eq_true, if_false, hst]
      rfl
  · intro env body db sweepNow t hval
    unfold Verify.POST
    rw [hval]
    cases hc : checkRateLimit request env sweepNow t store with
    | mk out st =>
      cases out with
      | none => rfl
      | some r => rfl

/-! ## The rate limiter: bypass and sweep -/

/-- Claim C13. `checkRateLimit` returns `null` and leaves the whole store as it
is, without sweeping, for every request that presents no credential; and for
requests that present a credential, the returned value and the resulting store
depend on the request and the environment only through the credential: not on
the development-mode flag nor on the `host` and `x-forwarded-for` headers. -/
theorem bypass_and_flag_independence :
    (∀ (request : Request) (env : Env) (sweepNow now : Nat) (store : Store),
      truthy (apiKeyOf request) = false →
      checkRateLimit request env sweepNow now store = (none, store)) ∧
    (∀ (request1 request2 : Request) (env1 env2 : Env) (sweepNow now : Nat) (store : Store),
      truthy (apiKeyOf request1) = true → apiKeyOf request1 = apiKeyOf request2 →
      checkRateLimit request1 env1 sweepNow now store =
        checkRateLimit request2 env2 sweepNow now store) := by
  refine ⟨fun request env sweepNow now store h => checkRateLimit_of_no_key h env _ _ _, ?_⟩
  intro request1 request2 env1 env2 sweepNow now store htr heq
  obtain ⟨k, hk, hne⟩ := apiKey_of_truthy htr
  rw [checkRateLimit_of_key hk hne, checkRateLimit_of_key (heq ▸ hk) hne]

/-! ## The cross-system clients -/

theorem lookup_set (o : JsObject) (name : String) (v : JsValue) (n : String) :
    List.lookup n (JsObject.set o name v) = if n = name then some v else List.lookup n o := by
  induction o with
  | nil =>
    by_cases h : n = name
    · simp [JsObject.set, List.lookup, h]
    · have hb : (n == name) = false := by simpa using h
      simp [JsObject.set, List.lookup, h, hb]
  | cons p rest ih =>
    obtain ⟨m, w⟩ := p
    by_cases hm : m = name
    · subst hm
      by_cases h : n = m
      · simp [JsObject.set, List.lookup, h]
      · have hb : (n == m) = false := by simpa using h
        simp [JsObject.set, List.lookup, h, hb]
    · by_cases h : n = m
      · subst h
        simp [JsObject.set, List.lookup, hm]
      · have hb : (n == m) = false := by simpa using h
        simp [JsObject.set, List.lookup, hm, hb, ih]

theorem lookup_eq_none_of_not_mem {n : String} {props : JsObject}
    (h : n ∉ props.map Prod.fst) : List.lookup n props = none := by
  induction props with
  | nil => rfl
  | cons p rest ih =>
    obtain ⟨m, w⟩ := p
    simp only [List.map_cons, List.mem_cons, not_or] at h
    have hb : (n == m) = false := by simpa using h.1
    simp [List.lookup, hb, ih h.2]

/-- Assigning the properties of an object in turn: a name of the object gets
the object's value, any other name keeps its value. -/
theorem lookup_foldl_set (n : String) :
    ∀ (props base : JsObject), (props.map Prod.fst).Nodup →
      List.lookup n (props.foldl (fun acc p => JsObject.set acc p.1 p.2) base) =
        match List.lookup n props with
        | some v => some v
        | none => List.lookup n base := by
  intro props
  induction props with
  | nil => intro base _; rfl
  | cons p rest ih =>
    intro base hnd
    obtain ⟨m, w⟩ := p
    simp only [List.map_cons, List.nodup_cons] at hnd
    rw [List.foldl_cons, ih _ hnd.2]
    by_cases h : n = m
    · subst h
      simp [List.lookup, lookup_eq_none_of_not_mem hnd.1, lookup_set]
    · have hb : (n == m) = false := by simpa using h
      simp [List.lookup, hb, lookup_set, h]

/-- Whatever `fetch` leads to, the `try`/`catch` statement returns either the
envelope of the `try` block or the failure envelope, whose message is never
empty. -/
theorem settle_failure (result : FetchResult) (message : String)
    (h : tryBlock result = .error message) :
    ∃ m, m ≠ "" ∧
      settle result = [("success", .bool false), ("error", .str m), ("data", .null)] := by
  by_cases hm : message = ""
  · exact ⟨"Unknown error", by decide, by simp [settle, h, failureEnvelope, hm]⟩
  · exact ⟨message, hm, by simp [settle, h, failureEnvelope, hm]⟩

/-- Claim C15, the failing input. An error thrown while the request is built
is not caught: with a base URL that has no scheme the `URL` constructor throws
before the `try` block and `apiRequest` rejects; likewise where there is no
`window`. -/
theorem build_fault_propagates :
    EfilingApiClient.apiRequest
        ⟨fun s base => if base.isNone && !s.data.contains ':' then .error "Invalid URL" else .ok s,
          none, fun _ => .rejects "fetch failed"⟩
        ⟨some "efiling.example.org/api/external", none⟩ "/divisions" {} =
      .error "Invalid URL" ∧
    VideoArchivingApiClient.apiRequest
        ⟨fun s base => if base.isNone && !s.data.contains ':' then .error "Invalid URL" else .ok s,
          none, fun _ => .rejects "fetch failed"⟩
        "/work-requests" {} =
      .error "window is not defined" := by
  constructor <;> rfl

/-- Claim C17, refuted as stated. A success-status payload that carries a
top-level field `success: false` overwrites the `success: true` of the
envelope, in both clients: the envelope is the literal
`{ success: true, data: data.data || data, ...data }`, as the specification
words it, and the merged fields come last. -/
theorem payload_success_field_overrides :
    (EfilingApiClient.apiRequest
        ⟨fun s _ => .ok s, some "http://localhost:3000",
          fun _ => .responds 200 (.ok (.obj [("success", .bool false)]))⟩
        ⟨none, none⟩ "/divisions" {}).map (fun e => List.lookup "success" e) =
      .ok (some (.bool false)) ∧
    (VideoArchivingApiClient.apiRequest
        ⟨fun s _ => .ok s, some "http://localhost:3000",
          fun _ => .responds 200 (.ok (.obj [("success", .bool false)]))⟩
        "/work-requests" {}).map (fun e => List.lookup "success" e) =
      .ok (some (.bool false)) := by
  constructor <;> rfl

/-! ## Identifier validation on both sides -/

/-- Claim C19, the failing input. An admitted verify request whose identifier
is the boolean `true` (present, neither a number nor a numeric string) passes
`isNaN(Number(...))`: the handler connects and issues the query with `true`,
and the answer is not the 400 response. -/
theorem boolean_identifier_reaches_database :
    (Verify.POST ⟨[("x-api-key", "secret")]⟩ ⟨none, some "secret", none⟩
        (some (.obj [("work_request_id", .bool true)]))
        ⟨true, fun v => match v with
          | .bool _ => none
          | _ => some []⟩
        1000 1000 1000 emptyStore).1 = Verify.internalError ∧
    (Verify.POST ⟨[("x-api-key", "secret")]⟩ ⟨none, some "secret", none⟩
        (some (.obj [("work_request_id", .bool true)]))
        ⟨true, fun v => match v with
          | .bool _ => none
          | _ => some []⟩
        1000 1000 1000 emptyStore).2.2 = [.readBody, .connect, .query (.bool true)] := by
  constructor <;> rfl

/-- Claim C20, refuted as stated. For the identifier `abc` both
`verifyWorkRequest` and the proxy `POST` issue a call of `fetch`. -/
theorem non_numeric_identifier_is_fetched :
    (VideoArchivingApiClient.verifyWorkRequest
        ⟨fun s _ => .ok s, some "http://localhost:5000",
          fun _ => .responds 400 (.ok (.obj [("error", .str "Invalid work_request_id format")]))⟩
        (.str "abc")).2.length = 1 ∧
    (Proxy.POST
        (fun _ => .responds 400 (.ok (.obj [("error", .str "Invalid work_request_id format")])))
        ⟨none, some "secret", none⟩ (some true)
        (some (.obj [("work_request_id", .str "abc")]))).2.length = 1 := by
  constructor <;> rfl

/-! ## Concrete runs of the headers, the sweep and the clients -/

/-- Claim C11 at the 100th admission of a window: the remaining count
reported is 0. -/
theorem headers_after_admission_witness :
    ∃ w, (checkRateLimit ⟨[("x-api-key", "k1")]⟩ ⟨none, none, none⟩ 4000 4000
          (emptyStore.set "rate_limit:k1" ⟨99, 5000⟩)).2 (rateLimitKey (some "k1")) = some w ∧
      1 ≤ w.count ∧ w.count ≤ 100 ∧
      getRateLimitHeaders ⟨[("x-api-key", "k1")]⟩ 4500
          (checkRateLimit ⟨[("x-api-key", "k1")]⟩ ⟨none, none, none⟩ 4000 4000
            (emptyStore.set "rate_limit:k1" ⟨99, 5000⟩)).2 =
        [("X-RateLimit-Limit", "100"),
         ("X-RateLimit-Remaining", toString (100 - w.count)),
         ("X-RateLimit-Reset", toISOString w.resetAt)] ∧
      (w.count = 1 → toString (100 - w.count) = "99") ∧
      (w.count = 100 → toString (100 - w.count) = "0") :=
  headers_after_admission ⟨[("x-api-key", "k1")]⟩ ⟨none, none, none⟩ "k1" (by decide)
    (by decide) 4000 4000 4500 (emptyStore.set "rate_limit:k1" ⟨99, 5000⟩) (by decide)

/-- Claim C12, amended, at a credential that has no window yet. -/
theorem headers_for_credentialed_requests_witness :
    (getRateLimitHeaders ⟨[("x-api-key", "k1")]⟩ 1000 emptyStore).map Prod.fst =
        ["X-RateLimit-Limit", "X-RateLimit-Remaining", "X-RateLimit-Reset"] ∧
      (emptyStore (rateLimitKey (apiKeyOf ⟨[("x-api-key", "k1")]⟩)) = none →
        getRateLimitHeaders ⟨[("x-api-key", "k1")]⟩ 1000 emptyStore =
          [("X-RateLimit-Limit", "100"), ("X-RateLimit-Remaining", "99"),
           ("X-RateLimit-Reset", toISOString (1000 + 60000))]) :=
  (headers_for_credentialed_requests ⟨[("x-api-key", "k1")]⟩ 1000 emptyStore).1 (by decide)

/-- Claim C13 at a request without a credential, and at two requests with the
credential `k1` that differ in host and development mode. -/
theorem bypass_and_flag_independence_witness :
    checkRateLimit ⟨[("host", "example.org")]⟩ ⟨some "production", none, none⟩ 7000 7000
        (emptyStore.set "rate_limit:k1" ⟨3, 5000⟩) =
      (none, emptyStore.set "rate_limit:k1" ⟨3, 5000⟩) ∧
    checkRateLimit ⟨[("x-api-key", "k1"), ("host", "localhost:3000")]⟩
        ⟨some "development", none, none⟩ 4000 4000 (emptyStore.set "rate_limit:k1" ⟨3, 5000⟩) =
      checkRateLimit ⟨[("x-api-key", "k1"), ("host", "example.org")]⟩
        ⟨some "production", some "k1", none⟩ 4000 4000
        (emptyStore.set "rate_limit:k1" ⟨3, 5000⟩) :=
  ⟨bypass_and_flag_independence.1 ⟨[("host", "example.org")]⟩ ⟨some "production", none, none⟩
      7000 7000 (emptyStore.set "rate_limit:k1" ⟨3, 5000⟩) (by decide),
    bypass_and_flag_independence.2 ⟨[("x-api-key", "k1"), ("host", "localhost:3000")]⟩
      ⟨[("x-api-key", "k1"), ("host", "example.org")]⟩ ⟨some "development", none, none⟩
      ⟨some "production", some "k1", none⟩ 4000 4000 (emptyStore.set "rate_limit:k1" ⟨3, 5000⟩)
      (by decide) (by decide)⟩

/-! ## Behaviour at the edges of the claims above -/

/-- With the clock read of the sweep no later than that of the call, every
window in the store after a call for a credential ends at or after the sweep's
read. -/
theorem windows_end_after_sweep (request : Request) (env : Env) (k : String)
    (hk : apiKeyOf request = some k) (hne : k ≠ "") (sweepNow now : Nat) (store : Store)
    (hclock : sweepNow ≤ now) :
    ∀ key w, (checkRateLimit request env sweepNow now store).2 key = some w →
      sweepNow ≤ w.resetAt := by
  intro key w hw
  rw [checkRateLimit_of_key hk hne] at hw
  have hfresh : ∀ st : Store,
      st.set (rateLimitKey (some k)) ⟨1, now + windowMs⟩ key = some w →
      (∀ w2, st key = some w2 → sweepNow ≤ w2.resetAt) → sweepNow ≤ w.resetAt := by
    intro st hset hst
    by_cases hkey : key = rateLimitKey (some k)
    · subst hkey
      rw [set_same] at hset
      cases hset
      exact hclock.trans (Nat.le_add_right _ _)
    · rw [set_other _ _ hkey] at hset
      exact hst w hset
  have hclean : ∀ w2, cleanupRateLimit sweepNow store key = some w2 → sweepNow ≤ w2.resetAt :=
    fun w2 h => cleanup_some_le h
  cases hc : cleanupRateLimit sweepNow store (rateLimitKey (some k)) with
  | none =>
    simp only [hc] at hw
    exact hfresh _ hw hclean
  | some limit =>
    simp only [hc] at hw
    by_cases hexp : now > limit.resetAt
    · simp only [hexp, if_true] at hw
      exact hfresh _ hw hclean
    · simp only [hexp, if_false] at hw
      by_cases hfull : limit.count ≥ maxRequests
      · simp only [hfull, if_true] at hw
        exact hclean w hw
      · simp only [hfull, if_false] at hw
        by_cases hkey : key = rateLimitKey (some k)
        · subst hkey
          rw [set_same] at hw
          cases hw
          exact (cleanup_some_le hc : sweepNow ≤ limit.resetAt)
        · rw [set_other _ _ hkey] at hw
          exact hclean w hw

/-! ## The verification protocol -/

/-- For an admitted request `POST` answers what the business handler answers on
the store that `checkRateLimit` left. -/
theorem POST_admitted {request : Request} {env : Env} (body : Option JsValue) (db : Db)
    {sweepNow now : Nat} (headersNow : Nat) {store : Store}
    (hval : validateApiKey request env = none)
    (hrate : (checkRateLimit request env sweepNow now store).1 = none) :
    (Verify.POST request env body db sweepNow now headersNow store).1 =
      (Verify.handler request body db headersNow
        (checkRateLimit request env sweepNow now store).2).1 := by
  unfold Verify.POST
  rw [hval]
  cases hc : checkRateLimit request env sweepNow now store with
  | mk out st =>
    rw [hc] at hrate
    simp only at hrate
    subst hrate
    rfl

/-- The handler on a body that is neither `null` nor `undefined`. -/
theorem handler_of_body (request : Request) {b : JsValue} (hb : b.isNullish = false) (db : Db)
    (headersNow : Nat) (store : Store) :
    Verify.handler request (some b) db headersNow store =
      if !((b.prop "work_request_id").or (b.prop "workRequestId")).truthy then
        (errorResponse "work_request_id is required" 400, [.readBody])
      else if ((b.prop "work_request_id").or (b.prop "workRequestId")).numberIsNaN then
        (errorResponse "Invalid work_request_id format" 400, [.readBody])
      else if !db.connects then
        (Verify.internalError, [.readBody, .connect])
      else
        match db.query ((b.prop "work_request_id").or (b.prop "workRequestId")) with
        | none =>
          (Verify.internalError,
            [.readBody, .connect, .query ((b.prop "work_request_id").or (b.prop "workRequestId"))])
        | some [] =>
          (Verify.notFound (getRateLimitHeaders request headersNow store),
            [.readBody, .connect, .query ((b.prop "work_request_id").or (b.prop "workRequestId"))])
        | some (workRequest :: _) =>
          (Verify.found workRequest (getRateLimitHeaders request headersNow store),
            [.readBody, .connect, .query ((b.prop "work_request_id").or (b.prop "workRequestId"))]) := by
  cases b with
  | undefined => simp [JsValue.isNullish] at hb
  | null => simp [JsValue.isNullish] at hb
  | _ => rfl

/-- The handler on an identifier that passes both checks, with a database that
connects and answers the query. -/
theorem handler_of_rows (request : Request) {b id : JsValue} (hb : b.isNullish = false)
    (hid : (b.prop "work_request_id").or (b.prop "workRequestId") = id)
    (htr : id.truthy = true) (hnum : id.numberIsNaN = false) {db : Db}
    (hconn : db.connects = true) {rows : List Row} (hq : db.query id = some rows)
    (headersNow : Nat) (store : Store) :
    (Verify.handler request (some b) db headersNow store).1 =
      match rows with
      | [] => Verify.notFound (getRateLimitHeaders request headersNow store)
      | workRequest :: _ =>
        Verify.found workRequest (getRateLimitHeaders request headersNow store) := by
  rw [handler_of_body request hb, hid]
  simp only [htr, hnum, hconn, Bool.not_true, Bool.false_eq_true, if_false, hq]
  cases rows <;> rfl

/-- A non-zero number and a non-empty numeric string pass both checks of the
handler. -/
theorem numeric_identifier_passes {id : JsValue}
    (h : (∃ n : Int, id = .num n ∧ n ≠ 0) ∨
      (∃ s : String, id = .str s ∧ s ≠ "" ∧ isNumericString s = true)) :
    id.truthy = true ∧ id.numberIsNaN = false := by
  rcases h with ⟨n, rfl, hn⟩ | ⟨s, rfl, hs, hnum⟩
  · simp [JsValue.truthy, JsValue.numberIsNaN, hn]
  · simp [JsValue.truthy, JsValue.numberIsNaN, hs, hnum]

/-- Claim C21, refuted as stated. The summary of an existing record carries the
field `address`, which is not among the fields the specification lists. -/
theorem summary_carries_address :
    (Verify.dataFields (Verify.found
        ⟨.num 42, .str "12 Canal Road", .str "Leak", .num 2, .str "Open", .str "2024-01-05",
          .str "2024-01-04", .str "Water"⟩ [])).map Prod.fst =
      ["id", "address", "description", "status", "status_id", "request_date", "created_date",
       "complaint_type"] ∧
    "address" ∉ Spec.summaryFields := by
  decide

/-- Claim C21, amended. For every existing record, the summary returned in
`data` by the verify endpoint has exactly eight fields: the seven the
specification lists and the record's `address`, each with the value of the
selected column (`complaint_type` is `null` when the column is falsy), and no
other field of the record. -/
theorem summary_is_eight_fields (request : Request) (env : Env) (b id : JsValue) (db : Db)
    (sweepNow now headersNow : Nat) (store : Store) (workRequest : Row) (rest : List Row)
    (hval : validateApiKey request env = none)
    (hrate : (checkRateLimit request env sweepNow now store).1 = none)
    (hb : b.isNullish = false)
    (hid : (b.prop "work_request_id").or (b.prop "workRequestId") = id)
    (htr : id.truthy = true) (hnum : id.numberIsNaN = false)
    (hconn : db.connects = true) (hq : db.query id = some (workRequest :: rest)) :
    Verify.dataFields (Verify.POST request env (some b) db sweepNow now headersNow store).1 =
        [("id", workRequest.id),
         ("address", workRequest.address),
         ("description", workRequest.description),
         ("status", workRequest.status_name),
         ("status_id", workRequest.status_id),
         ("request_date", workRequest.request_date),
         ("created_date", workRequest.created_date),
         ("complaint_type",
           if workRequest.complaint_type.truthy then workRequest.complaint_type else .null)] ∧
      ∀ name ∈ (Verify.dataFields
          (Verify.POST request env (some b) db sweepNow now headersNow store).1).map Prod.fst,
        name ∈ Spec.summaryFields ∨ name = "address" := by
  rw [POST_admitted (some b) db headersNow hval hrate,
    handler_of_rows request hb hid htr hnum hconn hq]
  refine ⟨rfl, ?_⟩
  intro name hname
  simp only [Verify.dataFields, Verify.found, List.lookup] at hname
  simp only [Spec.summaryFields]
  simp at hname ⊢
  tauto

theorem validate_shape {request : Request} {env : Env} {r : Response}
    (h : validateApiKey request env = some r) : ∃ msg status, r = errorResponse msg status := by
  unfold validateApiKey at h
  simp only at h
  split at h
  · cases h
  · split at h
    · exact ⟨_, _, (Option.some.inj h).symm⟩
    · split at h
      · split at h
        · cases h
        · exact ⟨_, _, (Option.some.inj h).symm⟩
      · split at h
        · exact ⟨_, _, (Option.some.inj h).symm⟩
        · cases h

theorem rejection_shape {request : Request} {env : Env} {s t : Nat} {store : Store}
    {r : Response} (h : (checkRateLimit request env s t store).1 = some r) :
    ∃ R, r = rateLimitExceeded R := by
  by_cases htr : truthy (apiKeyOf request) = true
  · obtain ⟨k, hk, hne⟩ := apiKey_of_truthy htr
    rw [checkRateLimit_of_key hk hne] at h
    cases hc : cleanupRateLimit s store (rateLimitKey (some k)) with
    | none => rw [hc] at h; cases h
    | some limit =>
      simp only [hc] at h
      by_cases hexp : t > limit.resetAt
      · simp only [hexp, if_true] at h; cases h
      · simp only [hexp, if_false] at h
        by_cases hfull : limit.count ≥ maxRequests
        · simp only [hfull, if_true] at h
          exact ⟨_, (Option.some.inj h).symm⟩
        · simp only [hfull, if_false] at h; cases h
  · rw [checkRateLimit_of_no_key (by simpa using htr)] at h
    cases h

/-- The responses the business handler can return. -/
theorem handler_shape (request : Request) (body : Option JsValue) (db : Db) (headersNow : Nat)
    (store : Store) :
    (Verify.handler request body db headersNow store).1 = Verify.internalError ∨
    (∃ msg, (Verify.handler request body db headersNow store).1 = errorResponse msg 400) ∨
    (∃ hs, (Verify.handler request body db headersNow store).1 = Verify.notFound hs) ∨
    (∃ row hs, (Verify.handler request body db headersNow store).1 = Verify.found row hs) := by
  cases body with
  | none => left; rfl
  | some b =>
    by_cases hb : b.isNullish = true
    · left
      cases b <;> first | rfl | (simp [JsValue.isNullish] at hb)
    · rw [handler_of_body request (by simpa using hb)]
      split
      · right; left; exact ⟨_, rfl⟩
      · split
        · right; left; exact ⟨_, rfl⟩
        · split
          · left; rfl
          · split
            · left; rfl
            · right; right; left; exact ⟨_, rfl⟩
            · right; right; right; exact ⟨_, _, rfl⟩

/-- The responses `POST` can return. -/
theorem POST_shape (request : Request) (env : Env) (body : Option JsValue) (db : Db)
    (sweepNow now headersNow : Nat) (store : Store) :
    (∃ msg status,
      (Verify.POST request env body db sweepNow now headersNow store).1 =
        errorResponse msg status) ∨
    (∃ R, (Verify.POST request env body db sweepNow now headersNow store).1 =
      rateLimitExceeded R) ∨
    (Verify.POST request env body db sweepNow now headersNow store).1 = Verify.internalError ∨
    (∃ hs, (Verify.POST request env body db sweepNow now headersNow store).1 =
      Verify.notFound hs) ∨
    (∃ row hs, (Verify.POST request env body db sweepNow now headersNow store).1 =
      Verify.found row hs) := by
  cases hval : validateApiKey request env with
  | some r =>
    obtain ⟨msg, status, hr⟩ := validate_shape hval
    left
    exact ⟨msg, status, by simp [Verify.POST, hval, hr]⟩
  | none =>
    cases hrate : (checkRateLimit request env sweepNow now store).1 with
    | some r =>
      obtain ⟨R, hr⟩ := rejection_shape hrate
      right; left
      refine ⟨R, ?_⟩
      unfold Verify.POST
      rw [hval]
      cases hc : checkRateLimit request env sweepNow now store with
      | mk out st =>
        rw [hc] at hrate
        simp only at hrate
        subst hrate
        exact hr
    | none =>
      rw [POST_admitted body db headersNow hval hrate]
      rcases handler_shape request body db headersNow
          (checkRateLimit request env sweepNow now store).2 with h | ⟨msg, h⟩ | h | h
      · right; right; left; exact h
      · left; exact ⟨msg, 400, h⟩
      · right; right; right; left; exact h
      · right; right; right; right; exact h

/-- Claim C22, refuted as stated. `verifyWorkRequest` copies `exists` and
`valid` from the payload of the peer: a success payload with `exists: true`
and `valid: false` gives a result whose `exists` differs from `valid`. -/
theorem client_result_copies_peer_fields :
    List.lookup "exists"
        (VideoArchivingApiClient.verifyWorkRequest
          ⟨fun s _ => .ok s, some "http://localhost:5000",
            fun _ => .responds 200 (.ok (.obj [("exists", .bool true), ("valid", .bool false)]))⟩
          (.num 42)).1 = some (.bool true) ∧
    List.lookup "valid"
        (VideoArchivingApiClient.verifyWorkRequest
          ⟨fun s _ => .ok s, some "http://localhost:5000",
            fun _ => .responds 200 (.ok (.obj [("exists", .bool true), ("valid", .bool false)]))⟩
          (.num 42)).1 = some (.bool false) := by
  constructor <;> rfl

/-- Claim C22, amended. Every response body of the verify endpoint has `exists`
equal to `valid`, and whenever `exists` is false its `data` is `null`
(not-found) or absent (internal-error). Every result of `verifyWorkRequest`
either reports a failure, with `exists` and `valid` false and no `data` field,
or copies the payload `P` of a success response: `exists` is
`P.exists || false`, `valid` is `P.valid || false`, `data` is `P.data || null`,
so that `exists` equals `valid`, and `data` is `null`, whenever the payload has
these properties. -/
theorem verification_shape_invariants :
    (∀ (request : Request) (env : Env) (body : Option JsValue) (db : Db)
        (sweepNow now headersNow : Nat) (store : Store),
      List.lookup "exists" (Verify.POST request env body db sweepNow now headersNow store).1.body =
        List.lookup "valid" (Verify.POST request env body db sweepNow now headersNow store).1.body ∧
      (List.lookup "exists"
          (Verify.POST request env body db sweepNow now headersNow store).1.body =
          some (.scalar (.bool false)) →
        List.lookup "data" (Verify.POST request env body db sweepNow now headersNow store).1.body =
            some (.scalar .null) ∨
          List.lookup "data" (Verify.POST request env body db sweepNow now headersNow store).1.body =
            none)) ∧
    (∀ (platform : Platform) (id : JsValue),
      (List.lookup "exists" (VideoArchivingApiClient.verifyWorkRequest platform id).1 =
          some (.bool false) ∧
        List.lookup "valid" (VideoArchivingApiClient.verifyWorkRequest platform id).1 =
          some (.bool false) ∧
        List.lookup "data" (VideoArchivingApiClient.verifyWorkRequest platform id).1 = none) ∨
      (∃ (status : Nat) (P : JsValue),
        platform.fetch (VideoArchivingApiClient.verifyCall id) = .responds status (.ok P) ∧
        isOk status = true ∧
        List.lookup "exists" (VideoArchivingApiClient.verifyWorkRequest platform id).1 =
          some ((P.prop "exists").or (.bool false)) ∧
        List.lookup "valid" (VideoArchivingApiClient.verifyWorkRequest platform id).1 =
          some ((P.prop "valid").or (.bool false)) ∧
        List.lookup "data" (VideoArchivingApiClient.verifyWorkRequest platform id).1 =
          some ((P.prop "data").or .null) ∧
        (P.prop "exists" = P.prop "valid" →
          List.lookup "exists" (VideoArchivingApiClient.verifyWorkRequest platform id).1 =
            List.lookup "valid" (VideoArchivingApiClient.verifyWorkRequest platform id).1) ∧
        ((P.prop "data").truthy = false →
          List.lookup "data" (VideoArchivingApiClient.verifyWorkRequest platform id).1 =
            some .null))) := by
  constructor
  · intro request env body db sweepNow now headersNow store
    rcases POST_shape request env body db sweepNow now headersNow store with
      ⟨msg, status, h⟩ | ⟨R, h⟩ | h | ⟨hs, h⟩ | ⟨row, hs, h⟩ <;> rw [h] <;>
      simp [errorResponse, rateLimitExceeded, Verify.internalError, Verify.notFound, Verify.found,
        List.lookup]
  · intro platform id
    by_cases hid : id.truthy = true
    · cases hf : platform.fetch (VideoArchivingApiClient.verifyCall id) with
      | rejects message =>
        left
        simp [VideoArchivingApiClient.verifyWorkRequest, hid, hf,
          VideoArchivingApiClient.verifyTry, VideoArchivingApiClient.verifyFailure, List.lookup]
      | responds status json =>
        by_cases hok : isOk status = true
        · cases json with
          | error message =>
            left
            simp [VideoArchivingApiClient.verifyWorkRequest, hid, hf,
              VideoArchivingApiClient.verifyTry, hok,
              VideoArchivingApiClient.verifyFailure, List.lookup]
          | ok P =>
            by_cases hP : P.isNullish = true
            · left
              simp [VideoArchivingApiClient.verifyWorkRequest, hid, hf,
                VideoArchivingApiClient.verifyTry, hok, hP,
                VideoArchivingApiClient.verifyFailure, List.lookup]
            · right
              have hP2 : P.isNullish = false := by simpa using hP
              have hres : (VideoArchivingApiClient.verifyWorkRequest platform id).1 =
                  [("success", .bool true),
                   ("exists", (P.prop "exists").or (.bool false)),
                   ("valid", (P.prop "valid").or (.bool false)),
                   ("data", (P.prop "data").or .null),
                   ("error", (P.prop "error").or .null)] := by
                simp [VideoArchivingApiClient.verifyWorkRequest, hid, hf,
                  VideoArchivingApiClient.verifyTry, hok, hP2]
              refine ⟨status, P, rfl, hok, ?_, ?_, ?_, ?_, ?_⟩
              · rw [hres]; rfl
              · rw [hres]; rfl
              · rw [hres]; rfl
              · intro heq
                rw [hres]
                simp [List.lookup, heq]
              · intro hfalsy
                rw [hres]
                simp [List.lookup, JsValue.or, hfalsy]
        · left
          have hok2 : isOk status = false := by simpa using hok
          cases hn : (errorDataOf json).isNullish <;>
            simp [VideoArchivingApiClient.verifyWorkRequest, hid, hf,
              VideoArchivingApiClient.verifyTry, hok2, hn,
              VideoArchivingApiClient.verifyFailure, List.lookup]
    · left
      have hid2 : id.truthy = false := by simpa using hid
      simp [VideoArchivingApiClient.verifyWorkRequest, hid2,
        VideoArchivingApiClient.verifyFailure, List.lookup]

/-- Claim C23, refuted as stated. For the numeric identifier 0, for which the
record store returns no row, the response is the 400 error
`work_request_id is required`, not the not-found body. -/
theorem zero_identifier_is_required_error :
    (Verify.POST ⟨[("x-api-key", "secret")]⟩ ⟨none, some "secret", none⟩
        (some (.obj [("work_request_id", .num 0)])) ⟨true, fun _ => some []⟩
        1000 1000 1000 emptyStore).1 = errorResponse "work_request_id is required" 400 ∧
    (Verify.POST ⟨[("x-api-key", "secret")]⟩ ⟨none, some "secret", none⟩
        (some (.obj [("work_request_id", .num 0)])) ⟨true, fun _ => some []⟩
        1000 1000 1000 emptyStore).2.2 = [.readBody] := by
  constructor <;> rfl

/-- Claim C23, amended. For every admitted verify request whose identifier is a
non-zero number or a non-empty numeric string, with a database that connects:
when the lookup returns no row the body is
`{ exists: false, valid: false, data: null }`; when it returns a row the body
has `exists` and `valid` true and `data.id` is the id of that row; and any
other admitted run of the same request against the same database returns the
same body. -/
theorem verify_numeric_identifier (request : Request) (env : Env) (b id : JsValue) (db : Db)
    (sweepNow now headersNow : Nat) (store : Store)
    (hval : validateApiKey request env = none)
    (hrate : (checkRateLimit request env sweepNow now store).1 = none)
    (hb : b.isNullish = false)
    (hid : (b.prop "work_request_id").or (b.prop "workRequestId") = id)
    (hnumeric : (∃ n : Int, id = .num n ∧ n ≠ 0) ∨
      (∃ s : String, id = .str s ∧ s ≠ "" ∧ isNumericString s = true))
    (hconn : db.connects = true) :
    (db.query id = some [] →
      (Verify.POST request env (some b) db sweepNow now headersNow store).1.body =
        [("exists", .scalar (.bool false)), ("valid", .scalar (.bool false)),
         ("data", .scalar .null)]) ∧
    (∀ row rest, db.query id = some (row :: rest) →
      List.lookup "exists"
          (Verify.POST request env (some b) db sweepNow now headersNow store).1.body =
        some (.scalar (.bool true)) ∧
      List.lookup "valid"
          (Verify.POST request env (some b) db sweepNow now headersNow store).1.body =
        some (.scalar (.bool true)) ∧
      List.lookup "id" (Verify.dataFields
          (Verify.POST request env (some b) db sweepNow now headersNow store).1) =
        some row.id) ∧
    (∀ (sweepNow2 now2 headersNow2 : Nat) (store2 : Store),
      (checkRateLimit request env sweepNow2 now2 store2).1 = none →
      (Verify.POST request env (some b) db sweepNow2 now2 headersNow2 store2).1.body =
        (Verify.POST request env (some b) db sweepNow now headersNow store).1.body) := by
  obtain ⟨htr, hnum⟩ := numeric_identifier_passes hnumeric
  refine ⟨?_, ?_, ?_⟩
  · intro hq
    rw [POST_admitted (some b) db headersNow hval hrate,
      handler_of_rows request hb hid htr hnum hconn hq]
    rfl
  · intro row rest hq
    rw [POST_admitted (some b) db headersNow hval hrate,
      handler_of_rows request hb hid htr hnum hconn hq]
    exact ⟨rfl, rfl, rfl⟩
  · intro sweepNow2 now2 headersNow2 store2 hrate2
    rw [POST_admitted (some b) db headersNow hval hrate,
      POST_admitted (some b) db headersNow2 hval hrate2]
    cases hq : db.query id with
    | none =>
      rw [handler_of_body request hb, handler_of_body request hb, hid]
      simp only [htr, hnum, hconn, hq, Bool.not_true, Bool.false_eq_true, if_false]
    | some rows =>
      rw [handler_of_rows request hb hid htr hnum hconn hq,
        handler_of_rows request hb hid htr hnum hconn hq]
      cases rows <;> simp only [Verify.notFound, Verify.found]

/-- Claim C24, the failing input. For the limit `abc`, `searchWorkRequests`
sends the query parameter `limit=NaN`, and the list endpoint's limit for
`?limit=abc` is `NaN`: neither is an integer. -/
theorem non_numeric_limit_is_nan :
    (VideoArchivingApiClient.searchRequest
        ⟨fun s _ => .ok s, some "http://localhost:5000", fun _ => .rejects "fetch failed"⟩
        { limit := .str "abc" }).map (fun call => call.query) =
      .ok [("scope", "efiling"), ("limit", "NaN")] ∧
    WorkRequests.limit (some "abc") = .nan := by
  constructor <;> rfl

/-- The limit parameter of `searchWorkRequests` and the limit of the list
endpoint in general: `scope` is always `efiling`; the parameter is `100` when
the limit is falsy and otherwise the rendering of `parseInt` of the limit
capped at 500, which is `NaN` exactly when `parseInt` gives `NaN`. -/
theorem search_limit_parameter (filters : VideoArchivingApiClient.Filters) :
    List.lookup "scope" (VideoArchivingApiClient.searchQueryParams filters) =
        some (.str "efiling") ∧
    (filters.limit.truthy = false →
      List.lookup "limit" (VideoArchivingApiClient.searchQueryParams filters) =
        some (.str "100")) ∧
    (∀ n : Int, filters.limit.truthy = true → parseInt filters.limit.toStr 0 = .int n →
      List.lookup "limit" (VideoArchivingApiClient.searchQueryParams filters) =
        some (.str (toString (min n 500)))) ∧
    (∀ (limitParam : Option String) (n : Int),
      parseInt ((jsOr limitParam (some "100")).getD "") 10 = .int n →
      WorkRequests.limit limitParam = .int (min n 500)) := by
  refine ⟨?_, ?_, ?_, ?_⟩
  · simp [VideoArchivingApiClient.searchQueryParams, List.lookup]
  · intro h
    cases hs : filters.search.truthy <;> cases ht : filters.status.truthy <;>
      simp [VideoArchivingApiClient.searchQueryParams, List.lookup, h, hs, ht]
  · intro n h hp
    cases hs : filters.search.truthy <;> cases ht : filters.status.truthy <;>
      simp [VideoArchivingApiClient.searchQueryParams, List.lookup, h, hs, ht, hp, mathMin,
        JsNum.toStr]
  · intro limitParam n hp
    simp [WorkRequests.limit, hp, mathMin]

/-! ## Isolation between credentials and the two validators -/

theorem cleanup_congr {store1 store2 : Store} {key : String} (h : store1 key = store2 key)
    (s : Nat) : cleanupRateLimit s store1 key = cleanupRateLimit s store2 key := by
  simp [cleanupRateLimit, h]

/-- The value returned by `checkRateLimit` for a credential depends on the
store only through that credential's entry. -/
theorem decision_depends_on_own_entry {request : Request} {k : String}
    (hk : apiKeyOf request = some k) (hne : k ≠ "") (env : Env) (s t : Nat)
    {store1 store2 : Store}
    (h : store1 (rateLimitKey (some k)) = store2 (rateLimitKey (some k))) :
    (checkRateLimit request env s t store1).1 = (checkRateLimit request env s t store2).1 := by
  rw [checkRateLimit_of_key hk hne, checkRateLimit_of_key hk hne, cleanup_congr h s]
  cases cleanupRateLimit s store2 (rateLimitKey (some k)) with
  | none => rfl
  | some limit =>
    simp only
    split
    · rfl
    · split <;> rfl

/-- Claim C26. For distinct credentials A and B, with the clock not going
backwards inside the call: the store keys of A and B differ; a
`checkRateLimit` call for A leaves an unexpired window of B (`now ≤ resetAt`)
as it is; and the value returned for A is the same whether B has no window or
any window. -/
theorem credentials_are_isolated (request : Request) (env : Env) (a b : String)
    (ha : apiKeyOf request = some a) (hane : a ≠ "") (hab : a ≠ b) (sweepNow now : Nat)
    (hclock : sweepNow ≤ now) (store : Store) :
    rateLimitKey (some a) ≠ rateLimitKey (some b) ∧
    (∀ w, store (rateLimitKey (some b)) = some w → now ≤ w.resetAt →
      (checkRateLimit request env sweepNow now store).2 (rateLimitKey (some b)) = some w) ∧
    (∀ w,
      (checkRateLimit request env sweepNow now (store.set (rateLimitKey (some b)) w)).1 =
        (checkRateLimit request env sweepNow now store).1) ∧
    (checkRateLimit request env sweepNow now (store.delete (rateLimitKey (some b)))).1 =
      (checkRateLimit request env sweepNow now store).1 := by
  have hkey : rateLimitKey (some a) ≠ rateLimitKey (some b) :=
    fun h => hab (rateLimitKey_injective h)
  refine ⟨hkey, ?_, ?_, ?_⟩
  · intro w hst hin
    rw [check_other_key ha hane hab]
    exact cleanup_keep hst (hclock.trans hin)
  · intro w
    exact decision_depends_on_own_entry ha hane env sweepNow now (set_other _ _ hkey)
  · apply decision_depends_on_own_entry ha hane env sweepNow now
    simp [Store.delete, hkey]

/-- Claim C27. The two copies of `validateApiKey` decide alike for every
request and configuration: one returns `null` exactly when the other does,
their error responses have the same status, 401 or 500, and the responses
differ only when the credential is missing, in the wording of that message. -/
theorem validators_agree (request : Request) (env : Env) :
    (ApiAuth.validateApiKey request env = none ↔
      ExternalApiAuth.validateApiKey request env = none) ∧
    (ApiAuth.validateApiKey request env).map (fun r => r.status) =
      (ExternalApiAuth.validateApiKey request env).map (fun r => r.status) ∧
    (∀ r, ApiAuth.validateApiKey request env = some r → r.status = 401 ∨ r.status = 500) ∧
    (ApiAuth.validateApiKey request env ≠ ExternalApiAuth.validateApiKey request env →
      ApiAuth.validateApiKey request env =
          some (errorResponse "API key required. Provide X-API-Key header." 401) ∧
        ExternalApiAuth.validateApiKey request env =
          some (errorResponse "Unauthorized - API key required. Provide X-API-Key header." 401)) := by
  unfold ApiAuth.validateApiKey ExternalApiAuth.validateApiKey
  have hloc : ExternalApiAuth.isLocalhost request = ApiAuth.isLocalhost request := rfl
  simp only [hloc]
  by_cases h5 : apiKeyOf request = expectedKeyOf env <;>
    cases isDevelopment env <;> cases ApiAuth.isLocalhost request <;>
    cases truthy (apiKeyOf request) <;> cases truthy (expectedKeyOf env) <;>
    simp [errorResponse, h5]

/-! ## The burst bound over a span of one window length -/

theorem allowedIn_mono_hi (k : String) (lo : Nat) {hi1 hi2 : Nat} (h : hi1 ≤ hi2)
    (calls : List Call) (outs : List (Option Response)) :
    allowedIn k lo hi1 calls outs ≤ allowedIn k lo hi2 calls outs := by
  unfold allowedIn
  apply List.countP_mono_left
  intro p _ hp
  simp only [isAllowedIn, Bool.and_eq_true, decide_eq_true_eq] at hp ⊢
  exact ⟨hp.1, hp.2.trans h⟩

/-- When the current window of `k` reaches the end of the span, the admissions
in the span fit in what is left of the window. -/
theorem span_inside_window (env : Env) {k : String} (hne : k ≠ "") (a b : Nat)
    (calls : List Call) (store : Store) (n R : Nat)
    (hst : store (rateLimitKey (some k)) = some ⟨n, R⟩) (hb : b ≤ R)
    (hmono : NonDecreasing calls) :
    allowedIn k a b calls (runCalls env calls store).1 ≤ maxRequests - n :=
  (allowedIn_mono_hi k a hb calls _).trans
    (allowed_le_budget env hne a R calls store n hst hmono)

/-- A call for `k` that finds no window, or one that has ended by the sweep or
by the call, stores a new window. -/
theorem check_creates {request : Request} {k : String} (hk : apiKeyOf request = some k)
    (hne : k ≠ "") (env : Env) (s t : Nat) (store : Store)
    (h : store (rateLimitKey (some k)) = none ∨
      ∃ w, store (rateLimitKey (some k)) = some w ∧ (w.resetAt < s ∨ w.resetAt < t)) :
    checkRateLimit request env s t store =
      (none, (cleanupRateLimit s store).set (rateLimitKey (some k)) ⟨1, t + windowMs⟩) := by
  rw [checkRateLimit_of_key hk hne]
  rcases h with h | ⟨w, hw, hexp⟩
  · rw [cleanup_none _ h]
  · by_cases hs : w.resetAt < s
    · rw [cleanup_drop hw hs]
    · rw [cleanup_keep hw (Nat.not_lt.mp hs)]
      have ht : t > w.resetAt := by
        rcases hexp with h1 | h1
        · exact absurd h1 hs
        · exact h1
      simp [ht]

theorem not_counted_of_other (k : String) (a b : Nat) (c : Call) (out : Option Response)
    (h : apiKeyOf c.request ≠ some k) : isAllowedIn k a b (c, out) = false := by
  simp [isAllowedIn, h]

/-- From a store where `k` has no window, with every call at or after the
start of the span: at most `maxRequests` admissions fall in the span. -/
theorem span_from_no_window (env : Env) {k : String} (hne : k ≠ "") (a b : Nat)
    (hspan : b ≤ a + windowMs) :
    ∀ (calls : List Call) (store : Store),
      store (rateLimitKey (some k)) = none → (∀ c ∈ calls, a ≤ c.now) → NonDecreasing calls →
      allowedIn k a b calls (runCalls env calls store).1 ≤ maxRequests := by
  have hmax : maxRequests = 100 := rfl
  intro calls
  induction calls with
  | nil => intro store _ _ _; simp [allowedIn]
  | cons c cs ih =>
    intro store hst hall hmono
    obtain ⟨_, _, hmono2⟩ := nonDecreasing_cons hmono
    have hrest : ∀ d ∈ cs, a ≤ d.now := fun d hd => hall d (List.mem_cons_of_mem _ hd)
    rw [runCalls_cons, allowedIn_cons]
    by_cases htr : truthy (apiKeyOf c.request) = true
    · obtain ⟨k2, hk2, hne2⟩ := apiKey_of_truthy htr
      by_cases hdiff : k2 = k
      · subst hdiff
        rw [check_creates hk2 hne2 env c.sweepNow c.now store (Or.inl hst)]
        have hca : a ≤ c.now := hall c (List.mem_cons_self _ _)
        have := span_inside_window env hne2 a b cs
          ((cleanupRateLimit c.sweepNow store).set (rateLimitKey (some k2)) ⟨1, c.now + windowMs⟩)
          1 (c.now + windowMs) (set_same _ _ _) (by omega) hmono2
        rw [hmax] at this ⊢
        dsimp only
        split <;> omega
      · rw [not_counted_of_other k a b c _ (by rw [hk2]; simpa using hdiff)]
        have hst2 : (checkRateLimit c.request env c.sweepNow c.now store).2
            (rateLimitKey (some k)) = none := by
          rw [check_other_key hk2 hne2 hdiff]
          exact cleanup_none _ hst
        simpa using ih _ hst2 hrest hmono2
    · have hnone : truthy (apiKeyOf c.request) = false := by simpa using htr
      have hother : apiKeyOf c.request ≠ some k := by
        intro h; rw [h] at hnone; simp [truthy, hne] at hnone
      rw [not_counted_of_other k a b c _ hother, checkRateLimit_of_no_key hnone]
      simpa using ih store hst hrest hmono2

/-- From a store where `k` has a window with count `n`, with every call at or
after the start of the span: the admissions in the span fit in what is left of
that window plus one further window. -/
theorem span_from_window (env : Env) {k : String} (hne : k ≠ "") (a b : Nat)
    (hspan : b ≤ a + windowMs) :
    ∀ (calls : List Call) (store : Store) (n R : Nat),
      store (rateLimitKey (some k)) = some ⟨n, R⟩ → (∀ c ∈ calls, a ≤ c.now) →
      NonDecreasing calls →
      allowedIn k a b calls (runCalls env calls store).1 ≤ (maxRequests - n) + maxRequests := by
  have hmax : maxRequests = 100 := rfl
  intro calls
  induction calls with
  | nil => intro store n R _ _ _; simp [allowedIn]
  | cons c cs ih =>
    intro store n R hst hall hmono
    obtain ⟨hsweep, _, hmono2⟩ := nonDecreasing_cons hmono
    have hrest : ∀ d ∈ cs, a ≤ d.now := fun d hd => hall d (List.mem_cons_of_mem _ hd)
    have hca : a ≤ c.now := hall c (List.mem_cons_self _ _)
    rw [runCalls_cons, allowedIn_cons]
    by_cases htr : truthy (apiKeyOf c.request) = true
    · obtain ⟨k2, hk2, hne2⟩ := apiKey_of_truthy htr
      by_cases hdiff : k2 = k
      · subst hdiff
        by_cases hin : c.now ≤ R
        · have hkeep := cleanup_keep hst (show c.sweepNow ≤ (⟨n, R⟩ : RateLimitWindow).resetAt
            from hsweep.trans hin)
          rw [checkRateLimit_of_key hk2 hne2, hkeep]
          simp only [gt_iff_lt, Nat.not_lt.mpr hin, if_false]
          by_cases hfull : n ≥ maxRequests
          · simp only [hfull, if_true]
            have := ih (cleanupRateLimit c.sweepNow store) n R hkeep hrest hmono2
            simp only [isAllowedIn, Option.isNone_some, Bool.and_false, Bool.false_and]
            simpa using this
          · simp only [hfull, if_false]
            have := ih ((cleanupRateLimit c.sweepNow store).set (rateLimitKey (some k2))
              ⟨n + 1, R⟩) (n + 1) R (set_same _ _ _) hrest hmono2
            rw [hmax] at this hfull ⊢
            split <;> omega
        · rw [check_creates hk2 hne2 env c.sweepNow c.now store
            (Or.inr ⟨⟨n, R⟩, hst, Or.inr (Nat.lt_of_not_le hin)⟩)]
          have := span_inside_window env hne2 a b cs
            ((cleanupRateLimit c.sweepNow store).set (rateLimitKey (some k2))
              ⟨1, c.now + windowMs⟩)
            1 (c.now + windowMs) (set_same _ _ _) (by omega) hmono2
          rw [hmax] at this ⊢
          dsimp only
          split <;> omega
      · rw [not_counted_of_other k a b c _ (by rw [hk2]; simpa using hdiff)]
        by_cases hin : c.sweepNow ≤ R
        · have hkeep := cleanup_keep hst (show c.sweepNow ≤ (⟨n, R⟩ : RateLimitWindow).resetAt
            from hin)
          have := ih _ n R ((check_other_key hk2 hne2 hdiff env c.sweepNow c.now store).trans
            hkeep) hrest hmono2
          simpa using this
        · have hgone : (checkRateLimit c.request env c.sweepNow c.now store).2
              (rateLimitKey (some k)) = none := by
            rw [check_other_key hk2 hne2 hdiff]
            exact cleanup_drop hst (Nat.lt_of_not_le hin)
          have := span_from_no_window env hne a b hspan cs _ hgone hrest hmono2
          rw [hmax] at this ⊢
          simp only [Bool.false_eq_true, if_false]
          omega
    · have hnone : truthy (apiKeyOf c.request) = false := by simpa using htr
      have hother : apiKeyOf c.request ≠ some k := by
        intro h; rw [h] at hnone; simp [truthy, hne] at hnone
      rw [not_counted_of_other k a b c _ hother, checkRateLimit_of_no_key hnone]
      simpa using ih store n R hst hrest hmono2

/-- From any store: the admissions of `k` in a span no longer than one window
are at most twice `maxRequests`. -/
theorem span_bound (env : Env) {k : String} (hne : k ≠ "") (a b : Nat)
    (hspan : b ≤ a + windowMs) :
    ∀ (calls : List Call) (store : Store), NonDecreasing calls →
      allowedIn k a b calls (runCalls env calls store).1 ≤ 2 * maxRequests := by
  have hmax : maxRequests = 100 := rfl
  intro calls
  induction calls with
  | nil => intro store _; simp [allowedIn]
  | cons c cs ih =>
    intro store hmono
    obtain ⟨_, hlater, hmono2⟩ := nonDecreasing_cons hmono
    by_cases hca : a ≤ c.now
    · have hall : ∀ d ∈ c :: cs, a ≤ d.now := by
        intro d hd
        rcases List.mem_cons.mp hd with rfl | hd
        · exact hca
        · exact hca.trans (hlater d hd).2
      cases hst : store (rateLimitKey (some k)) with
      | none =>
        have := span_from_no_window env hne a b hspan (c :: cs) store hst hall hmono
        omega
      | some w =>
        obtain ⟨n, R⟩ := w
        have := span_from_window env hne a b hspan (c :: cs) store n R hst hall hmono
        omega
    · rw [runCalls_cons, allowedIn_cons]
      have hnot : isAllowedIn k a b
          (c, (checkRateLimit c.request env c.sweepNow c.now store).1) = false := by
        simp [isAllowedIn, hca]
      rw [hnot]
      simpa using ih _ hmono2

/-- Claim C25. In a sequence of `checkRateLimit` calls at non-decreasing
instants from the empty store, for every span `[a, b]` of length at most
60000 ms and every credential, the number of allowed calls for that credential
with instants in the span is at most `2 * maxRequests` = 200. -/
theorem at_most_two_windows_per_span (env : Env) (k : String) (hne : k ≠ "")
    (calls : List Call) (hmono : NonDecreasing calls) (a b : Nat) (hspan : b ≤ a + 60000) :
    allowedIn k a b calls (runCalls env calls emptyStore).1 ≤ 200 :=
  span_bound env hne a b hspan calls emptyStore hmono

/-! ## Concrete runs of the verification protocol and of the isolation claims -/

/-- Claim C21, amended, at the record 42 looked up with a valid credential. -/
theorem summary_is_eight_fields_witness :
    Verify.dataFields (Verify.POST ⟨[("x-api-key", "secret")]⟩ ⟨none, some "secret", none⟩
        (some (.obj [("work_request_id", .num 42)]))
        ⟨true, fun _ => some [⟨.num 42, .str "12 Canal Road", .str "Leak", .num 2, .str "Open",
          .str "2024-01-05", .str "2024-01-04", .str ""⟩]⟩
        1000 1000 1000 emptyStore).1 =
      [("id", .num 42), ("address", .str "12 Canal Road"), ("description", .str "Leak"),
       ("status", .str "Open"), ("status_id", .num 2), ("request_date", .str "2024-01-05"),
       ("created_date", .str "2024-01-04"), ("complaint_type", .null)] :=
  (summary_is_eight_fields ⟨[("x-api-key", "secret")]⟩ ⟨none, some "secret", none⟩
    (.obj [("work_request_id", .num 42)]) (.num 42)
    ⟨true, fun _ => some [⟨.num 42, .str "12 Canal Road", .str "Leak", .num 2, .str "Open",
      .str "2024-01-05", .str "2024-01-04", .str ""⟩]⟩
    1000 1000 1000 emptyStore
    ⟨.num 42, .str "12 Canal Road", .str "Leak", .num 2, .str "Open", .str "2024-01-05",
      .str "2024-01-04", .str ""⟩ []
    (by decide) (by decide) rfl rfl rfl rfl rfl rfl).1

/-- Claim C22, amended, at the internal-error response of the endpoint (the
database does not connect): `exists` equals `valid` and `data` is absent. -/
theorem verification_shape_invariants_witness :
    List.lookup "exists" (Verify.POST ⟨[("x-api-key", "secret")]⟩ ⟨none, some "secret", none⟩
        (some (.obj [("work_request_id", .num 42)])) ⟨false, fun _ => none⟩
        1000 1000 1000 emptyStore).1.body =
      List.lookup "valid" (Verify.POST ⟨[("x-api-key", "secret")]⟩ ⟨none, some "secret", none⟩
        (some (.obj [("work_request_id", .num 42)])) ⟨false, fun _ => none⟩
        1000 1000 1000 emptyStore).1.body ∧
    (List.lookup "data" (Verify.POST ⟨[("x-api-key", "secret")]⟩ ⟨none, some "secret", none⟩
        (some (.obj [("work_request_id", .num 42)])) ⟨false, fun _ => none⟩
        1000 1000 1000 emptyStore).1.body = some (.scalar .null) ∨
      List.lookup "data" (Verify.POST ⟨[("x-api-key", "secret")]⟩ ⟨none, some "secret", none⟩
        (some (.obj [("work_request_id", .num 42)])) ⟨false, fun _ => none⟩
        1000 1000 1000 emptyStore).1.body = none) :=
  ⟨(verification_shape_invariants.1 ⟨[("x-api-key", "secret")]⟩ ⟨none, some "secret", none⟩
      (some (.obj [("work_request_id", .num 42)])) ⟨false, fun _ => none⟩
      1000 1000 1000 emptyStore).1,
    (verification_shape_invariants.1 ⟨[("x-api-key", "secret")]⟩ ⟨none, some "secret", none⟩
      (some (.obj [("work_request_id", .num 42)])) ⟨false, fun _ => none⟩
      1000 1000 1000 emptyStore).2 (by decide)⟩

/-- Claim C23, amended, at the identifier `999999` given as a string, for which
the database returns no row. -/
theorem verify_numeric_identifier_witness :
    (Verify.POST ⟨[("x-api-key", "secret")]⟩ ⟨none, some "secret", none⟩
        (some (.obj [("workRequestId", .str "999999")])) ⟨true, fun _ => some []⟩
        1000 1000 1000 emptyStore).1.body =
      [("exists", .scalar (.bool false)), ("valid", .scalar (.bool false)),
       ("data", .scalar .null)] :=
  (verify_numeric_identifier ⟨[("x-api-key", "secret")]⟩ ⟨none, some "secret", none⟩
    (.obj [("workRequestId", .str "999999")]) (.str "999999") ⟨true, fun _ => some []⟩
    1000 1000 1000 emptyStore (by decide) (by decide) rfl rfl
    (Or.inr ⟨"999999", rfl, by decide, by decide⟩) rfl).1 rfl

/-- Claim C25 at three calls for `k1` that straddle the end of its first
window. -/
theorem at_most_two_windows_per_span_witness :
    allowedIn "k1" 50000 110000
      [⟨⟨[("x-api-key", "k1")]⟩, 1000, 1000⟩, ⟨⟨[("x-api-key", "k1")]⟩, 60000, 60000⟩,
        ⟨⟨[("x-api-key", "k1")]⟩, 61001, 61001⟩]
      (runCalls ⟨none, none, none⟩
        [⟨⟨[("x-api-key", "k1")]⟩, 1000, 1000⟩, ⟨⟨[("x-api-key", "k1")]⟩, 60000, 60000⟩,
          ⟨⟨[("x-api-key", "k1")]⟩, 61001, 61001⟩]
        emptyStore).1 ≤ 200 :=
  at_most_two_windows_per_span ⟨none, none, none⟩ "k1" (by decide)
    [⟨⟨[("x-api-key", "k1")]⟩, 1000, 1000⟩, ⟨⟨[("x-api-key", "k1")]⟩, 60000, 60000⟩,
      ⟨⟨[("x-api-key", "k1")]⟩, 61001, 61001⟩]
    (by decide) 50000 110000 (by decide)

/-- Claim C26 at a call for `k1` while `k2` holds a window that has not ended. -/
theorem credentials_are_isolated_witness :
    (checkRateLimit ⟨[("x-api-key", "k1")]⟩ ⟨none, none, none⟩ 4000 4000
        (emptyStore.set "rate_limit:k2" ⟨100, 5000⟩)).2 (rateLimitKey (some "k2")) =
      some ⟨100, 5000⟩ :=
  (credentials_are_isolated ⟨[("x-api-key", "k1")]⟩ ⟨none, none, none⟩ "k1" "k2" (by decide)
    (by decide) (by decide) 4000 4000 (by decide)
    (emptyStore.set "rate_limit:k2" ⟨100, 5000⟩)).2.1 ⟨100, 5000⟩ (by decide) (by decide)

/-- Claim C27 at a request without a credential outside development mode: both
copies answer 401, with different wording. -/
theorem validators_agree_witness :
    (ApiAuth.validateApiKey ⟨[("host", "example.org")]⟩ ⟨some "production", some "secret", none⟩).map
        (fun r => r.status) =
      (ExternalApiAuth.validateApiKey ⟨[("host", "example.org")]⟩
        ⟨some "production", some "secret", none⟩).map (fun r => r.status) ∧
    ApiAuth.validateApiKey ⟨[("host", "example.org")]⟩ ⟨some "production", some "secret", none⟩ =
      some (errorResponse "API key required. Provide X-API-Key header." 401) ∧
    ExternalApiAuth.validateApiKey ⟨[("host", "example.org")]⟩
        ⟨some "production", some "secret", none⟩ =
      some (errorResponse "Unauthorized - API key required. Provide X-API-Key header." 401) :=
  ⟨(validators_agree ⟨[("host", "example.org")]⟩ ⟨some "production", some "secret", none⟩).2.1,
    (validators_agree ⟨[("host", "example.org")]⟩ ⟨some "production", some "secret", none⟩).2.2.2
      (by decide)⟩

/-! ## The sweep and the two clock reads -/

/-- Claim C14, refuted as stated. When the clock ticks between the read of the
sweep (5000) and the read of the call (5001), a window of another credential
that ended at 5000 is still in the store after the call, although its
`resetAt` is before the instant of the call. -/
theorem window_survives_clock_tick :
    apiKeyOf ⟨[("x-api-key", "k1")]⟩ = some "k1" ∧
    (checkRateLimit ⟨[("x-api-key", "k1")]⟩ ⟨none, none, none⟩ 5000 5001
        (emptyStore.set "rate_limit:k2" ⟨3, 5000⟩)).2 "rate_limit:k2" = some ⟨3, 5000⟩ ∧
    (5000 : Nat) < 5001 := by
  decide

/-- Claim C14, amended. After a `checkRateLimit` call for a request that
presents a credential, with the sweep reading the clock at `sweepNow` and the
call at `now ≥ sweepNow`: no stored window, of any credential, has
`resetAt < sweepNow`, and the caller's own window has `resetAt ≥ now`. Every
window of another credential that had ended when the sweep read the clock is
removed, any other window of another credential is left as it was, and an
expired window of the caller (`resetAt < now`) is replaced by a fresh one.
When both reads return the same instant, no stored window has
`resetAt < now`. -/
theorem sweep_removes_expired_windows (request : Request) (env : Env) (k : String)
    (hk : apiKeyOf request = some k) (hne : k ≠ "") (sweepNow now : Nat) (store : Store)
    (hclock : sweepNow ≤ now) :
    (∀ key w, (checkRateLimit request env sweepNow now store).2 key = some w →
      ¬ w.resetAt < sweepNow) ∧
    (∀ w, (checkRateLimit request env sweepNow now store).2 (rateLimitKey (some k)) = some w →
      ¬ w.resetAt < now) ∧
    (∀ key w, key ≠ rateLimitKey (some k) → store key = some w → w.resetAt < sweepNow →
      (checkRateLimit request env sweepNow now store).2 key = none) ∧
    (∀ key w, key ≠ rateLimitKey (some k) → store key = some w → sweepNow ≤ w.resetAt →
      (checkRateLimit request env sweepNow now store).2 key = some w) ∧
    (∀ w, store (rateLimitKey (some k)) = some w → w.resetAt < now →
      (checkRateLimit request env sweepNow now store).2 (rateLimitKey (some k)) =
        some { count := 1, resetAt := now + 60000 }) ∧
    (sweepNow = now →
      ∀ key w, (checkRateLimit request env sweepNow now store).2 key = some w →
        ¬ w.resetAt < now) := by
  have hother : ∀ key, key ≠ rateLimitKey (some k) →
      (checkRateLimit request env sweepNow now store).2 key =
        cleanupRateLimit sweepNow store key := by
    intro key hkey
    rw [checkRateLimit_of_key hk hne]
    split
    · exact set_other _ _ hkey
    · split
      · exact set_other _ _ hkey
      · split
        · rfl
        · exact set_other _ _ hkey
  have hsweep : ∀ key w, (checkRateLimit request env sweepNow now store).2 key = some w →
      ¬ w.resetAt < sweepNow := fun key w hw =>
    Nat.not_lt.mpr (windows_end_after_sweep request env k hk hne sweepNow now store hclock key w hw)
  refine ⟨hsweep, ?_, ?_, ?_, ?_, ?_⟩
  · intro w hw
    rw [checkRateLimit_of_key hk hne] at hw
    cases hc : cleanupRateLimit sweepNow store (rateLimitKey (some k)) with
    | none =>
      simp only [hc, set_same, Option.some.injEq] at hw
      subst hw
      simp only [windowMs]
      omega
    | some limit =>
      simp only [hc] at hw
      by_cases hexp : now > limit.resetAt
      · simp only [hexp, if_true, set_same, Option.some.injEq] at hw
        subst hw
        simp only [windowMs]
        omega
      · simp only [hexp, if_false] at hw
        by_cases hfull : limit.count ≥ maxRequests
        · simp only [hfull, if_true, hc, Option.some.injEq] at hw
          subst hw
          omega
        · simp only [hfull, if_false, set_same, Option.some.injEq] at hw
          subst hw
          simpa using hexp
  · intro key w hkey hst hexp
    rw [hother key hkey]
    exact cleanup_drop hst hexp
  · intro key w hkey hst hin
    rw [hother key hkey]
    exact cleanup_keep hst hin
  · intro w hst hexp
    rw [check_creates hk hne env sweepNow now store (Or.inr ⟨w, hst, Or.inr hexp⟩)]
    exact set_same _ _ _
  · intro heq key w hw
    rw [← heq]
    exact hsweep key w hw

/-- Claim C14, amended, at a call for `k1` whose sweep reads 6000 and which
reads 6001, while `k2` holds a window that ended at 5000: it is removed. -/
theorem sweep_removes_expired_windows_witness :
    (checkRateLimit ⟨[("x-api-key", "k1")]⟩ ⟨none, none, none⟩ 6000 6001
        (emptyStore.set "rate_limit:k2" ⟨3, 5000⟩)).2 "rate_limit:k2" = none :=
  (sweep_removes_expired_windows ⟨[("x-api-key", "k1")]⟩ ⟨none, none, none⟩ "k1" (by decide)
    (by decide) 6000 6001 (emptyStore.set "rate_limit:k2" ⟨3, 5000⟩) (by decide)).2.2.1
    "rate_limit:k2" ⟨3, 5000⟩ (by decide) (by decide) (by decide)

/-! ## The envelopes of both clients -/

/-- Once its request is built, the e-filing client hands it to `fetch` and
resolves to what the `try`/`catch` statement returns. -/
theorem efiling_sends {platform : Platform} {env : EfilingApiClient.ClientEnv}
    {endpoint : String} {options : RequestOptions} {call : FetchCall}
    (h : EfilingApiClient.buildRequest platform env endpoint options = .ok call) :
    EfilingApiClient.apiRequest platform env endpoint options =
      .ok (settle (platform.fetch call)) := by
  simp [EfilingApiClient.apiRequest, h]

/-- Once its request is built, the video-archiving client hands it to `fetch`
and resolves to what the `try`/`catch` statement returns. -/
theorem video_sends {platform : Platform} {endpoint : String} {options : RequestOptions}
    {call : FetchCall}
    (h : VideoArchivingApiClient.buildRequest platform endpoint options = .ok call) :
    VideoArchivingApiClient.apiRequest platform endpoint options =
      .ok (settle (platform.fetch call)) := by
  simp [VideoArchivingApiClient.apiRequest, h]

theorem settle_error_string {status : Nat} (hs : isOk status = false) {fields : JsObject}
    {e : String} (he : List.lookup "error" fields = some (.str e)) (hne : e ≠ "") :
    settle (.responds status (.ok (.obj fields))) =
      [("success", .bool false), ("error", .str e), ("data", .null)] := by
  simp [settle, tryBlock, hs, errorDataOf, JsValue.isNullish, JsValue.prop, he, JsValue.or,
    JsValue.truthy, hne, JsValue.toStr, failureEnvelope]

theorem settle_unparseable {status : Nat} (hs : isOk status = false) (message : String) :
    settle (.responds status (.error message)) =
      [("success", .bool false), ("error", .str "Unknown error"), ("data", .null)] := by
  simp [settle, tryBlock, hs, errorDataOf, JsValue.isNullish, JsValue.prop, List.lookup,
    JsValue.or, JsValue.truthy, JsValue.toStr, failureEnvelope]

theorem settle_no_error_field {status : Nat} (hs : isOk status = false) {v : JsValue}
    (hnn : v.isNullish = false) (he : v.prop "error" = .undefined) :
    settle (.responds status (.ok v)) =
      [("success", .bool false),
       ("error", .str ("API request failed with status " ++ toString status)),
       ("data", .null)] := by
  have hne : ("API request failed with status " ++ toString status) ≠ "" := by
    intro h
    have := congrArg String.length h
    simp only [String.length_append] at this
    have h31 : "API request failed with status ".length = 31 := by decide
    rw [h31] at this
    exact absurd this (by simp)
  simp [settle, tryBlock, hs, errorDataOf, hnn, he, JsValue.or, JsValue.truthy,
    JsValue.toStr, failureEnvelope, hne]

/-- The envelope for a success status and an object payload: the literal
`{ success: true, data: data.data || data }` with every field of the payload
assigned over it. -/
theorem settle_success_object {status : Nat} (hs : isOk status = true) (fields : JsObject) :
    settle (.responds status (.ok (.obj fields))) =
      fields.foldl (fun acc p => JsObject.set acc p.1 p.2)
        [("success", .bool true),
         ("data", ((JsValue.obj fields).prop "data").or (.obj fields))] := by
  simp [settle, tryBlock, hs, JsValue.isNullish, spread, JsValue.ownProps]

/-- Claim C16, refuted as stated. A non-success response whose body parses to
the JSON value `null` has no error field, yet the message of the envelope is
not `API request failed with status 500`: reading `error` from `null` throws
and the envelope carries the message of that error, in both clients. -/
theorem null_error_body_message :
    EfilingApiClient.apiRequest
        ⟨fun s _ => .ok s, some "http://localhost:3000", fun _ => .responds 500 (.ok .null)⟩
        ⟨none, none⟩ "/divisions" {} =
      .ok [("success", .bool false),
           ("error", .str "Cannot read properties of null (reading 'error')"),
           ("data", .null)] ∧
    VideoArchivingApiClient.apiRequest
        ⟨fun s _ => .ok s, some "http://localhost:3000", fun _ => .responds 500 (.ok .null)⟩
        "/work-requests" {} =
      .ok [("success", .bool false),
           ("error", .str "Cannot read properties of null (reading 'error')"),
           ("data", .null)] := by
  constructor <;> rfl

/-- Claim C16, amended. For every non-success status of the peer, each client
whose request is built and answered with that status resolves to the envelope
`{ success: false, error: m, data: null }` where `m` is: the error string `e`
of an object payload with a non-empty error string; `Unknown error` for a body
that cannot be parsed; `API request failed with status <status>` for a body
that parses to a value other than `null` without an error field. -/
theorem non_success_status_messages (platform : Platform) (env : EfilingApiClient.ClientEnv)
    (endpoint : String) (options : RequestOptions) (status : Nat)
    (json : Except String JsValue) (hs : isOk status = false) :
    (∀ call, EfilingApiClient.buildRequest platform env endpoint options = .ok call →
      platform.fetch call = .responds status json →
      (∀ fields e, json = .ok (.obj fields) → List.lookup "error" fields = some (.str e) →
        e ≠ "" →
        EfilingApiClient.apiRequest platform env endpoint options =
          .ok [("success", .bool false), ("error", .str e), ("data", .null)]) ∧
      (∀ message, json = .error message →
        EfilingApiClient.apiRequest platform env endpoint options =
          .ok [("success", .bool false), ("error", .str "Unknown error"), ("data", .null)]) ∧
      (∀ v, json = .ok v → v.isNullish = false → v.prop "error" = .undefined →
        EfilingApiClient.apiRequest platform env endpoint options =
          .ok [("success", .bool false),
            ("error", .str ("API request failed with status " ++ toString status)),
            ("data", .null)])) ∧
    (∀ call, VideoArchivingApiClient.buildRequest platform endpoint options = .ok call →
      platform.fetch call = .responds status json →
      (∀ fields e, json = .ok (.obj fields) → List.lookup "error" fields = some (.str e) →
        e ≠ "" →
        VideoArchivingApiClient.apiRequest platform endpoint options =
          .ok [("success", .bool false), ("error", .str e), ("data", .null)]) ∧
      (∀ message, json = .error message →
        VideoArchivingApiClient.apiRequest platform endpoint options =
          .ok [("success", .bool false), ("error", .str "Unknown error"), ("data", .null)]) ∧
      (∀ v, json = .ok v → v.isNullish = false → v.prop "error" = .undefined →
        VideoArchivingApiClient.apiRequest platform endpoint options =
          .ok [("success", .bool false),
            ("error", .str ("API request failed with status " ++ toString status)),
            ("data", .null)])) := by
  constructor
  · intro call hb hf
    rw [efiling_sends hb, hf]
    refine ⟨?_, ?_, ?_⟩
    · intro fields e hj he hne
      rw [hj, settle_error_string hs he hne]
    · intro message hj
      rw [hj, settle_unparseable hs]
    · intro v hj hnn he
      rw [hj, settle_no_error_field hs hnn he]
  · intro call hb hf
    rw [video_sends hb, hf]
    refine ⟨?_, ?_, ?_⟩
    · intro fields e hj he hne
      rw [hj, settle_error_string hs he hne]
    · intro message hj
      rw [hj, settle_unparseable hs]
    · intro v hj hnn he
      rw [hj, settle_no_error_field hs hnn he]

/-- Claim C16, amended, at a peer that answers 500 with `{ error: 'boom' }`, in
both clients. -/
theorem non_success_status_messages_witness :
    EfilingApiClient.apiRequest
        ⟨fun s _ => .ok s, some "http://localhost:3000",
          fun _ => .responds 500 (.ok (.obj [("error", .str "boom")]))⟩
        ⟨none, none⟩ "/divisions" {} =
      .ok [("success", .bool false), ("error", .str "boom"), ("data", .null)] ∧
    VideoArchivingApiClient.apiRequest
        ⟨fun s _ => .ok s, some "http://localhost:3000",
          fun _ => .responds 500 (.ok (.obj [("error", .str "boom")]))⟩
        "/work-requests" {} =
      .ok [("success", .bool false), ("error", .str "boom"), ("data", .null)] :=
  ⟨((non_success_status_messages
      ⟨fun s _ => .ok s, some "http://localhost:3000",
        fun _ => .responds 500 (.ok (.obj [("error", .str "boom")]))⟩
      ⟨none, none⟩ "/divisions" {} 500 (.ok (.obj [("error", .str "boom")])) (by decide)).1
      _ rfl rfl).1 [("error", .str "boom")] "boom" rfl rfl (by decide),
    ((non_success_status_messages
      ⟨fun s _ => .ok s, some "http://localhost:3000",
        fun _ => .responds 500 (.ok (.obj [("error", .str "boom")]))⟩
      ⟨none, none⟩ "/work-requests" {} 500 (.ok (.obj [("error", .str "boom")])) (by decide)).2
      _ rfl rfl).1 [("error", .str "boom")] "boom" rfl rfl (by decide)⟩

/-- Claim C17, amended. For every success-status response whose body parses to
a JSON object, each client whose request is built and so answered resolves to
an envelope whose `success` is `true` when the object has no top-level
`success` field, and is the value of that field when it has one. -/
theorem envelope_success_field (platform : Platform) (env : EfilingApiClient.ClientEnv)
    (endpoint : String) (options : RequestOptions) (status : Nat) (fields : JsObject)
    (hs : isOk status = true) (hobj : (fields.map Prod.fst).Nodup) :
    (∀ call, EfilingApiClient.buildRequest platform env endpoint options = .ok call →
      platform.fetch call = .responds status (.ok (.obj fields)) →
      ∃ result, EfilingApiClient.apiRequest platform env endpoint options = .ok result ∧
        (List.lookup "success" fields = none →
          List.lookup "success" result = some (.bool true)) ∧
        (∀ v, List.lookup "success" fields = some v → List.lookup "success" result = some v)) ∧
    (∀ call, VideoArchivingApiClient.buildRequest platform endpoint options = .ok call →
      platform.fetch call = .responds status (.ok (.obj fields)) →
      ∃ result, VideoArchivingApiClient.apiRequest platform endpoint options = .ok result ∧
        (List.lookup "success" fields = none →
          List.lookup "success" result = some (.bool true)) ∧
        (∀ v, List.lookup "success" fields = some v → List.lookup "success" result = some v)) := by
  have hlook : (List.lookup "success" fields = none →
        List.lookup "success" (settle (.responds status (.ok (.obj fields)))) =
          some (.bool true)) ∧
      (∀ v, List.lookup "success" fields = some v →
        List.lookup "success" (settle (.responds status (.ok (.obj fields)))) = some v) := by
    rw [settle_success_object hs]
    constructor
    · intro hnone
      rw [lookup_foldl_set "success" fields _ hobj, hnone]
      simp [List.lookup]
    · intro v hv
      rw [lookup_foldl_set "success" fields _ hobj, hv]
  constructor
  · intro call hb hf
    exact ⟨_, by rw [efiling_sends hb, hf], hlook⟩
  · intro call hb hf
    exact ⟨_, by rw [video_sends hb, hf], hlook⟩

/-- Claim C17, amended, at a peer that answers 200 with `{ count: 7 }`, which
has no `success` field: `success` is `true` in both clients. -/
theorem envelope_success_field_witness :
    (∃ result, EfilingApiClient.apiRequest
        ⟨fun s _ => .ok s, some "http://localhost:3000",
          fun _ => .responds 200 (.ok (.obj [("count", .num 7)]))⟩
        ⟨none, none⟩ "/divisions" {} = .ok result ∧
      List.lookup "success" result = some (.bool true)) ∧
    (∃ result, VideoArchivingApiClient.apiRequest
        ⟨fun s _ => .ok s, some "http://localhost:3000",
          fun _ => .responds 200 (.ok (.obj [("count", .num 7)]))⟩
        "/work-requests" {} = .ok result ∧
      List.lookup "success" result = some (.bool true)) :=
  ⟨(((envelope_success_field
      ⟨fun s _ => .ok s, some "http://localhost:3000",
        fun _ => .responds 200 (.ok (.obj [("count", .num 7)]))⟩
      ⟨none, none⟩ "/divisions" {} 200 [("count", .num 7)] (by decide) (by decide)).1
      _ rfl rfl).imp fun _ h => ⟨h.1, h.2.1 rfl⟩),
    (((envelope_success_field
      ⟨fun s _ => .ok s, some "http://localhost:3000",
        fun _ => .responds 200 (.ok (.obj [("count", .num 7)]))⟩
      ⟨none, none⟩ "/work-requests" {} 200 [("count", .num 7)] (by decide) (by decide)).2
      _ rfl rfl).imp fun _ h => ⟨h.1, h.2.1 rfl⟩)⟩

/-- Claim C18. For every success-status payload `P` that is a JSON object, each
client whose request is built and so answered resolves to an envelope whose
`data` field is `P.data` whenever `P` has a top-level `data` field, whatever
its value, and `P` itself when it has none; every other top-level field of `P`
appears unchanged in the envelope. -/
theorem envelope_data_is_unwrapped_payload (platform : Platform)
    (env : EfilingApiClient.ClientEnv) (endpoint : String) (options : RequestOptions)
    (status : Nat) (fields : JsObject) (hs : isOk status = true)
    (hobj : (fields.map Prod.fst).Nodup) :
    (∀ call, EfilingApiClient.buildRequest platform env endpoint options = .ok call →
      platform.fetch call = .responds status (.ok (.obj fields)) →
      ∃ result, EfilingApiClient.apiRequest platform env endpoint options = .ok result ∧
        (∀ v, List.lookup "data" fields = some v → List.lookup "data" result = some v) ∧
        (List.lookup "data" fields = none →
          List.lookup "data" result = some (.obj fields)) ∧
        (∀ name v, name ≠ "data" → List.lookup name fields = some v →
          List.lookup name result = some v)) ∧
    (∀ call, VideoArchivingApiClient.buildRequest platform endpoint options = .ok call →
      platform.fetch call = .responds status (.ok (.obj fields)) →
      ∃ result, VideoArchivingApiClient.apiRequest platform endpoint options = .ok result ∧
        (∀ v, List.lookup "data" fields = some v → List.lookup "data" result = some v) ∧
        (List.lookup "data" fields = none →
          List.lookup "data" result = some (.obj fields)) ∧
        (∀ name v, name ≠ "data" → List.lookup name fields = some v →
          List.lookup name result = some v)) := by
  have hlook :
      (∀ v, List.lookup "data" fields = some v →
        List.lookup "data" (settle (.responds status (.ok (.obj fields)))) = some v) ∧
      (List.lookup "data" fields = none →
        List.lookup "data" (settle (.responds status (.ok (.obj fields)))) =
          some (.obj fields)) ∧
      (∀ name v, name ≠ "data" → List.lookup name fields = some v →
        List.lookup name (settle (.responds status (.ok (.obj fields)))) = some v) := by
    rw [settle_success_object hs]
    refine ⟨?_, ?_, ?_⟩
    · intro v hv
      rw [lookup_foldl_set "data" fields _ hobj, hv]
    · intro hnone
      rw [lookup_foldl_set "data" fields _ hobj, hnone]
      simp [List.lookup, JsValue.prop, hnone, JsValue.or, JsValue.truthy]
    · intro name v _ hv
      rw [lookup_foldl_set name fields _ hobj, hv]
  constructor
  · intro call hb hf
    exact ⟨_, by rw [efiling_sends hb, hf], hlook⟩
  · intro call hb hf
    exact ⟨_, by rw [video_sends hb, hf], hlook⟩

/-- Claim C18 at a peer that answers 200 with `{ data: null, count: 7 }`: in
both clients the envelope has `data` equal to `null` and `count` equal to 7. -/
theorem envelope_data_is_unwrapped_payload_witness :
    (∃ result, EfilingApiClient.apiRequest
        ⟨fun s _ => .ok s, some "http://localhost:3000",
          fun _ => .responds 200 (.ok (.obj [("data", .null), ("count", .num 7)]))⟩
        ⟨none, none⟩ "/divisions" {} = .ok result ∧
      List.lookup "data" result = some .null ∧ List.lookup "count" result = some (.num 7)) ∧
    (∃ result, VideoArchivingApiClient.apiRequest
        ⟨fun s _ => .ok s, some "http://localhost:3000",
          fun _ => .responds 200 (.ok (.obj [("data", .null), ("count", .num 7)]))⟩
        "/work-requests" {} = .ok result ∧
      List.lookup "data" result = some .null ∧ List.lookup "count" result = some (.num 7)) :=
  ⟨(((envelope_data_is_unwrapped_payload
      ⟨fun s _ => .ok s, some "http://localhost:3000",
        fun _ => .responds 200 (.ok (.obj [("data", .null), ("count", .num 7)]))⟩
      ⟨none, none⟩ "/divisions" {} 200 [("data", .null), ("count", .num 7)] (by decide)
      (by decide)).1 _ rfl rfl).imp fun _ h =>
        ⟨h.1, h.2.1 .null rfl, h.2.2.2 "count" (.num 7) (by decide) rfl⟩),
    (((envelope_data_is_unwrapped_payload
      ⟨fun s _ => .ok s, some "http://localhost:3000",
        fun _ => .responds 200 (.ok (.obj [("data", .null), ("count", .num 7)]))⟩
      ⟨none, none⟩ "/work-requests" {} 200 [("data", .null), ("count", .num 7)] (by decide)
      (by decide)).2 _ rfl rfl).imp fun _ h =>
        ⟨h.1, h.2.1 .null rfl, h.2.2.2 "count" (.num 7) (by decide) rfl⟩)⟩

/-! ## The verify operations of the calling side -/

/-- Claim C20, amended. For every identifier that is present (truthy), numeric
or not, neither verify operation of the calling side checks its format.
`verifyWorkRequest` makes exactly one call of `fetch`, to the proxy route, with
the body `{ work_request_id: id }`, and returns the error string of a
non-success answer. The proxy `POST`, for a signed-in session, makes exactly
one call of `fetch`, to the remote verify endpoint, with the same body, and
relays the error string of a non-success answer under the status of the peer;
without a signed-in session it makes no call of `fetch`. The malformed
identifier error comes from the remote verify endpoint alone: an admitted
request whose identifier is a string that `Number` turns into `NaN`, such as
`abc`, is answered 400 `Invalid work_request_id format` without any database
access. Only a missing (falsy) identifier is rejected locally, without any
call of `fetch`. -/
theorem verify_operations_forward_identifier (id : JsValue) (hid : id.truthy = true) :
    (∀ platform : Platform,
      (VideoArchivingApiClient.verifyWorkRequest platform id).2 =
        [VideoArchivingApiClient.verifyCall id] ∧
      (VideoArchivingApiClient.verifyCall id).body = some (.obj [("work_request_id", id)])) ∧
    (∀ (platform : Platform) (status : Nat) (fields : JsObject) (e : String),
      isOk status = false → List.lookup "error" fields = some (.str e) → e ≠ "" →
      platform.fetch (VideoArchivingApiClient.verifyCall id) =
        .responds status (.ok (.obj fields)) →
      (VideoArchivingApiClient.verifyWorkRequest platform id).1 =
        [("success", .bool false), ("exists", .bool false), ("valid", .bool false),
         ("error", .str e)]) ∧
    (∀ (fetch : FetchCall → FetchResult) (env : Proxy.ProxyEnv) (bodyFields : JsObject),
      List.lookup "work_request_id" bodyFields = some id →
      (Proxy.POST fetch env (some true) (some (.obj bodyFields))).2 =
        [Proxy.verifyCall env id] ∧
      (Proxy.verifyCall env id).body = some (.obj [("work_request_id", id)])) ∧
    (∀ (fetch : FetchCall → FetchResult) (env : Proxy.ProxyEnv) (bodyFields : JsObject)
      (status : Nat) (fields : JsObject) (e : String),
      List.lookup "work_request_id" bodyFields = some id →
      300 ≤ status → status ≤ 599 → status ≠ 304 →
      List.lookup "error" fields = some (.str e) → e ≠ "" →
      fetch (Proxy.verifyCall env id) = .responds status (.ok (.obj fields)) →
      (Proxy.POST fetch env (some true) (some (.obj bodyFields))).1.status = status ∧
      (Proxy.POST fetch env (some true) (some (.obj bodyFields))).1.body =
        .obj [("error", .str e)]) ∧
    (∀ (fetch : FetchCall → FetchResult) (env : Proxy.ProxyEnv) (body : Option JsValue),
      (Proxy.POST fetch env none body).2 = [] ∧
      (Proxy.POST fetch env none body).1.status = 500 ∧
      (Proxy.POST fetch env (some false) body).2 = [] ∧
      (Proxy.POST fetch env (some false) body).1.status = 401 ∧
      (Proxy.POST fetch env (some false) body).1.body = .obj [("error", .str "Unauthorized")]) ∧
    (∀ (s : String) (request : Request) (env : Env) (db : Db) (sweepNow now headersNow : Nat)
      (store : Store),
      id = .str s → isNumericString s = false →
      validateApiKey request env = none →
      (checkRateLimit request env sweepNow now store).1 = none →
      (Verify.POST request env (some (.obj [("work_request_id", id)])) db sweepNow now
          headersNow store).1 = errorResponse "Invalid work_request_id format" 400 ∧
      (Verify.POST request env (some (.obj [("work_request_id", id)])) db sweepNow now
          headersNow store).2.2 = [.readBody]) ∧
    (∀ (platform : Platform) (v : JsValue), v.truthy = false →
      VideoArchivingApiClient.verifyWorkRequest platform v =
        ([("success", .bool false), ("exists", .bool false), ("valid", .bool false),
          ("error", .str "Work request ID is required")], []) ∧
      ∀ (fetch : FetchCall → FetchResult) (env : Proxy.ProxyEnv),
        (Proxy.POST fetch env (some true) (some (.obj [("work_request_id", v)]))).2 = [] ∧
        (Proxy.POST fetch env (some true) (some (.obj [("work_request_id", v)]))).1.status =
          400 ∧
        (Proxy.POST fetch env (some true) (some (.obj [("work_request_id", v)]))).1.body =
          .obj [("error", .str "work_request_id is required")]) := by
  refine ⟨?_, ?_, ?_, ?_, ?_, ?_, ?_⟩
  · intro platform
    refine ⟨?_, rfl⟩
    simp only [VideoArchivingApiClient.verifyWorkRequest, hid, Bool.not_true,
      Bool.false_eq_true, if_false]
    split <;> rfl
  · intro platform status fields e hs he hne hf
    have hte : (JsValue.str e).truthy = true := by simp [JsValue.truthy, hne]
    have herr : (JsValue.obj fields).prop "error" = .str e := by
      simp [JsValue.prop, he]
    simp [VideoArchivingApiClient.verifyWorkRequest, hid, hf, VideoArchivingApiClient.verifyTry,
      hs, errorDataOf, JsValue.isNullish, herr, JsValue.or, hte,
      VideoArchivingApiClient.verifyFailure]
  · intro fetch env bodyFields hb
    have hprop : (JsValue.obj bodyFields).prop "work_request_id" = id := by
      simp [JsValue.prop, hb]
    refine ⟨?_, rfl⟩
    simp [Proxy.POST, hprop, JsValue.or, hid]
  · intro fetch env bodyFields status fields e hb h300 h599 h304 he hne hf
    have hprop : (JsValue.obj bodyFields).prop "work_request_id" = id := by
      simp [JsValue.prop, hb]
    have hs : isOk status = false := by
      simp only [isOk, Bool.and_eq_false_imp, decide_eq_true_eq, decide_eq_false_iff_not]
      omega
    have hte : (JsValue.str e).truthy = true := by simp [JsValue.truthy, hne]
    have herr : (JsValue.obj fields).prop "error" = .str e := by
      simp [JsValue.prop, he]
    have hnext : ∀ b : JsValue, Proxy.nextJson b status = some ⟨status, b⟩ := by
      intro b
      have h1 : ¬ status < 200 := by omega
      have h2 : ¬ status > 599 := by omega
      have h3 : status ≠ 204 := by omega
      have h4 : status ≠ 205 := by omega
      simp [Proxy.nextJson, h1, h2, h3, h4, h304]
    simp [Proxy.POST, hprop, JsValue.or, hid, hf, Proxy.relay, hs, errorDataOf,
      JsValue.isNullish, herr, hte, hnext]
  · intro fetch env body
    exact ⟨rfl, rfl, rfl, rfl, rfl⟩
  · intro s request env db sweepNow now headersNow store hstr hnum hval hrate
    subst hstr
    have hne : s ≠ "" := by
      intro h
      subst h
      exact absurd hnum (by decide)
    have hh : ∀ st : Store,
        Verify.handler request (some (.obj [("work_request_id", .str s)])) db headersNow st =
          (errorResponse "Invalid work_request_id format" 400, [.readBody]) := by
      intro st
      simp [Verify.handler, JsValue.prop, List.lookup, JsValue.or, JsValue.truthy, hne,
        JsValue.numberIsNaN, hnum]
    unfold Verify.POST
    rw [hval]
    cases hc : checkRateLimit request env sweepNow now store with
    | mk out st =>
      rw [hc] at hrate
      simp only at hrate
      subst hrate
      simp [hh]
  · intro platform v hv
    refine ⟨by simp [VideoArchivingApiClient.verifyWorkRequest, hv,
      VideoArchivingApiClient.verifyFailure], ?_⟩
    intro fetch env
    have hprop2 : (JsValue.obj [("work_request_id", v)]).prop "work_request_id" = v := by
      simp [JsValue.prop, List.lookup]
    have hprop3 : (JsValue.obj [("work_request_id", v)]).prop "workRequestId" = .undefined := by
      simp [JsValue.prop, List.lookup]
    have hu : JsValue.undefined.truthy = false := rfl
    simp [Proxy.POST, hprop2, hprop3, JsValue.or, hv, hu]

/-- Claim C20, amended, at the identifier `abc`: the client and the proxy each
make their one call of `fetch` and relay the error of the peer, which the
remote verify endpoint produces for an admitted request. -/
theorem verify_operations_forward_identifier_witness :
    (VideoArchivingApiClient.verifyWorkRequest
        ⟨fun s _ => .ok s, some "http://localhost:5000",
          fun _ => .responds 400 (.ok (.obj [("error", .str "Invalid work_request_id format")]))⟩
        (.str "abc")).2 = [VideoArchivingApiClient.verifyCall (.str "abc")] ∧
    (VideoArchivingApiClient.verifyWorkRequest
        ⟨fun s _ => .ok s, some "http://localhost:5000",
          fun _ => .responds 400 (.ok (.obj [("error", .str "Invalid work_request_id format")]))⟩
        (.str "abc")).1 =
      [("success", .bool false), ("exists", .bool false), ("valid", .bool false),
       ("error", .str "Invalid work_request_id format")] ∧
    (Proxy.POST
        (fun _ => .responds 400 (.ok (.obj [("error", .str "Invalid work_request_id format")])))
        ⟨none, some "secret", none⟩ (some true)
        (some (.obj [("work_request_id", .str "abc")]))).2 =
      [Proxy.verifyCall ⟨none, some "secret", none⟩ (.str "abc")] ∧
    (Proxy.POST
        (fun _ => .responds 400 (.ok (.obj [("error", .str "Invalid work_request_id format")])))
        ⟨none, some "secret", none⟩ (some true)
        (some (.obj [("work_request_id", .str "abc")]))).1.status = 400 ∧
    (Proxy.POST
        (fun _ => .responds 400 (.ok (.obj [("error", .str "Invalid work_request_id format")])))
        ⟨none, some "secret", none⟩ (some true)
        (some (.obj [("work_request_id", .str "abc")]))).1.body =
      .obj [("error", .str "Invalid work_request_id format")] ∧
    (Verify.POST ⟨[("x-api-key", "secret")]⟩ ⟨none, some "secret", none⟩
        (some (.obj [("work_request_id", .str "abc")])) ⟨true, fun _ => some []⟩
        1000 1000 1000 emptyStore).1 = errorResponse "Invalid work_request_id format" 400 ∧
    (Verify.POST ⟨[("x-api-key", "secret")]⟩ ⟨none, some "secret", none⟩
        (some (.obj [("work_request_id", .str "abc")])) ⟨true, fun _ => some []⟩
        1000 1000 1000 emptyStore).2.2 = [.readBody] :=
  ⟨((verify_operations_forward_identifier (.str "abc") (by decide)).1 _).1,
    (verify_operations_forward_identifier (.str "abc") (by decide)).2.1
      ⟨fun s _ => .ok s, some "http://localhost:5000",
        fun _ => .responds 400 (.ok (.obj [("error", .str "Invalid work_request_id format")]))⟩
      400 [("error", .str "Invalid work_request_id format")] "Invalid work_request_id format"
      (by decide) rfl (by decide) rfl,
    ((verify_operations_forward_identifier (.str "abc") (by decide)).2.2.1
      (fun _ => .responds 400 (.ok (.obj [("error", .str "Invalid work_request_id format")])))
      ⟨none, some "secret", none⟩ [("work_request_id", .str "abc")] rfl).1,
    ((verify_operations_forward_identifier (.str "abc") (by decide)).2.2.2.1
      (fun _ => .responds 400 (.ok (.obj [("error", .str "Invalid work_request_id format")])))
      ⟨none, some "secret", none⟩ [("work_request_id", .str "abc")] 400
      [("error", .str "Invalid work_request_id format")] "Invalid work_request_id format"
      rfl (by decide) (by decide) (by decide) rfl (by decide) rfl).1,
    ((verify_operations_forward_identifier (.str "abc") (by decide)).2.2.2.1
      (fun _ => .responds 400 (.ok (.obj [("error", .str "Invalid work_request_id format")])))
      ⟨none, some "secret", none⟩ [("work_request_id", .str "abc")] 400
      [("error", .str "Invalid work_request_id format")] "Invalid work_request_id format"
      rfl (by decide) (by decide) (by decide) rfl (by decide) rfl).2,
    ((verify_operations_forward_identifier (.str "abc") (by decide)).2.2.2.2.2.1 "abc"
      ⟨[("x-api-key", "secret")]⟩ ⟨none, some "secret", none⟩ ⟨true, fun _ => some []⟩
      1000 1000 1000 emptyStore rfl (by decide) (by decide) (by decide)).1,
    ((verify_operations_forward_identifier (.str "abc") (by decide)).2.2.2.2.2.1 "abc"
      ⟨[("x-api-key", "secret")]⟩ ⟨none, some "secret", none⟩ ⟨true, fun _ => some []⟩
      1000 1000 1000 emptyStore rfl (by decide) (by decide) (by decide)).2⟩

end Efiling
